/-
Verification of the pve-traffic-monitor traffic accounting and policy
enforcement engine against its natural-language specification.

The Go source is shallowly embedded: byte counters (Go uint64) are modelled
as exact naturals, since no subtraction in the delta calculator can underflow
(segment bases are always below the values subtracted from, see the proofs
below) and realistic byte counters stay far below 2^64, so wrap-around never
changes any result the claims talk about.  Wall-clock instants are modelled
at minute granularity as a civil-calendar record together with a linear
minutes-since-epoch view, mirroring Go `time.Date` normalization.
-/
import Mathlib

namespace PveTrafficMonitor

/-! ## Delta calculator (`pkg/storage/factory.go`, `calculateTraffic`) -/

/-- One traffic sample: `models.TrafficRecord` restricted to the fields the
delta calculator reads.  Timestamps are minutes since epoch. -/
structure TrafficRecord where
  timestamp : Int
  rxBytes : Nat
  txBytes : Nat
deriving Repr, DecidableEq

/-- Mutable loop state of `calculateTraffic`: running totals and the current
segment base for each direction. -/
structure CalcState where
  totalRX : Nat
  totalTX : Nat
  rxSegmentStart : Nat
  txSegmentStart : Nat
deriving Repr, DecidableEq

/-- Body of the `for i := 1; i < len(records); i++` loop of
`calculateTraffic`, acting on one consecutive pair `(records[i-1], records[i])`:
a counter decrease closes the current segment (adds `previous - segmentStart`)
and resets the segment base to `0`, independently per direction. -/
def calcStep (s : CalcState) (prev cur : TrafficRecord) : CalcState :=
  let s1 :=
    if cur.rxBytes < prev.rxBytes then
      { s with totalRX := s.totalRX + (prev.rxBytes - s.rxSegmentStart), rxSegmentStart := 0 }
    else s
  if cur.txBytes < prev.txBytes then
    { s1 with totalTX := s1.totalTX + (prev.txBytes - s1.txSegmentStart), txSegmentStart := 0 }
  else s1

/-- The list of consecutive pairs of a list, `(l[i-1], l[i])` for `i ≥ 1`. -/
def consPairs : List TrafficRecord → List (TrafficRecord × TrafficRecord)
  | a :: b :: t => (a, b) :: consPairs (b :: t)
  | _ => []

/-- `calculateTraffic` from `pkg/storage/factory.go`.  Returns
`(totalRXBytes, totalTXBytes)`.  Fewer than two records yield `(0, 0)`.
If the second record's counter is below the first's in either direction
(`firstRXRestart` / `firstTXRestart`), that direction's segment base starts
at `0` instead of the first record's value, and the Go loop `continue`s at
`i == 1` whenever either flag is set (modelled by dropping the first
consecutive pair).  After the walk the still-open segment
`last - segmentStart` is added per direction. -/
def calculateTraffic (records : List TrafficRecord) : Nat × Nat :=
  match records with
  | [] => (0, 0)
  | [_] => (0, 0)
  | r0 :: r1 :: rest =>
    let firstRXRestart := r1.rxBytes < r0.rxBytes
    let firstTXRestart := r1.txBytes < r0.txBytes
    let rxSegmentStart := if firstRXRestart then 0 else r0.rxBytes
    let txSegmentStart := if firstTXRestart then 0 else r0.txBytes
    let pairs :=
      if firstRXRestart ∨ firstTXRestart then consPairs (r1 :: rest)
      else consPairs (r0 :: r1 :: rest)
    let st := pairs.foldl (fun s p => calcStep s p.1 p.2)
      { totalRX := 0, totalTX := 0,
        rxSegmentStart := rxSegmentStart, txSegmentStart := txSegmentStart }
    let lastRecord := rest.foldl (fun _ r => r) r1
    (st.totalRX + (lastRecord.rxBytes - st.rxSegmentStart),
     st.totalTX + (lastRecord.txBytes - st.txSegmentStart))

/-! The spec's segment algorithm (§4.1), written from the spec's words for a
single direction, to be compared with `calculateTraffic`. -/

/-- Modelled from the spec (§4.1), single direction: walk consecutive pairs;
whenever a counter decreases, add `(previous value − current segment base)` to
the running total and reset the segment base to `0`; after the walk add
`(last sample's value − current segment base)`. -/
def specWalk (base total : Nat) : List Nat → Nat
  | [] => total
  | [v] => total + (v - base)
  | a :: b :: t =>
    if b < a then specWalk 0 (total + (a - base)) (b :: t)
    else specWalk base total (b :: t)

/-- Modelled from the spec (§4.1): the segment base is initialized to the
first sample's value, unless the second sample's counter is lower than the
first's, in which case the first sample is discarded and the base starts at
`0`.  A single sample yields `0`. -/
def specSegTotal : List Nat → Nat
  | [] => 0
  | [_] => 0
  | v0 :: v1 :: rest =>
    if v1 < v0 then specWalk 0 0 (v1 :: rest)
    else specWalk v0 0 (v0 :: v1 :: rest)

/-! Single-direction view of the code's walk, used to relate the two-direction
fold to the spec's per-direction recursion. -/

/-- Single-direction version of `calcStep`, on `(total, segmentBase)`. -/
def codeStep1 (s : Nat × Nat) (prev cur : Nat) : Nat × Nat :=
  if cur < prev then (s.1 + (prev - s.2), 0) else s

/-- Single-direction version of the code's pair walk plus the final
still-open-segment addition. -/
def codeWalk1 (base : Nat) (values : List Nat) : Nat :=
  match values with
  | [] => 0
  | v :: vs =>
    let st := (List.zip (v :: vs) vs).foldl (fun s p => codeStep1 s p.1 p.2) (0, base)
    let lastV := vs.foldl (fun _ r => r) v
    st.1 + (lastV - st.2)

/-- Last element of `v :: vs`, written as the code's
`rest.foldl (fun _ r => r) r1` idiom. -/
def lastD (v : Nat) (vs : List Nat) : Nat := vs.foldl (fun _ r => r) v

lemma consPairs_eq_zip (l : List TrafficRecord) : consPairs l = List.zip l l.tail := by
  match l with
  | [] => rfl
  | [a] => rfl
  | a :: b :: t =>
    rw [consPairs, consPairs_eq_zip (b :: t)]
    rfl

lemma rxPart_calcStep (s : CalcState) (a b : TrafficRecord) :
    ((calcStep s a b).totalRX, (calcStep s a b).rxSegmentStart) =
      codeStep1 (s.totalRX, s.rxSegmentStart) a.rxBytes b.rxBytes := by
  unfold calcStep codeStep1
  by_cases h1 : b.rxBytes < a.rxBytes <;> by_cases h2 : b.txBytes < a.txBytes <;>
    simp [h1, h2]

lemma txPart_calcStep (s : CalcState) (a b : TrafficRecord) :
    ((calcStep s a b).totalTX, (calcStep s a b).txSegmentStart) =
      codeStep1 (s.totalTX, s.txSegmentStart) a.txBytes b.txBytes := by
  unfold calcStep codeStep1
  by_cases h1 : b.rxBytes < a.rxBytes <;> by_cases h2 : b.txBytes < a.txBytes <;>
    simp [h1, h2]

lemma rxPart_foldl (ps : List (TrafficRecord × TrafficRecord)) (s : CalcState) :
    ((ps.foldl (fun s p => calcStep s p.1 p.2) s).totalRX,
     (ps.foldl (fun s p => calcStep s p.1 p.2) s).rxSegmentStart) =
      ps.foldl (fun a p => codeStep1 a p.1.rxBytes p.2.rxBytes)
        (s.totalRX, s.rxSegmentStart) := by
  induction ps generalizing s with
  | nil => rfl
  | cons p t ih => rw [List.foldl_cons, List.foldl_cons, ih, rxPart_calcStep]

lemma txPart_foldl (ps : List (TrafficRecord × TrafficRecord)) (s : CalcState) :
    ((ps.foldl (fun s p => calcStep s p.1 p.2) s).totalTX,
     (ps.foldl (fun s p => calcStep s p.1 p.2) s).txSegmentStart) =
      ps.foldl (fun a p => codeStep1 a p.1.txBytes p.2.txBytes)
        (s.totalTX, s.txSegmentStart) := by
  induction ps generalizing s with
  | nil => rfl
  | cons p t ih => rw [List.foldl_cons, List.foldl_cons, ih, txPart_calcStep]

lemma specWalk_eq_codeWalk (vs : List Nat) (v : Nat) (base total : Nat) :
    specWalk base total (v :: vs) =
      (let st := (List.zip (v :: vs) vs).foldl (fun s p => codeStep1 s p.1 p.2) (total, base)
       st.1 + (lastD v vs - st.2)) := by
  induction vs generalizing v base total with
  | nil => simp [specWalk, lastD]
  | cons b t ih =>
    show specWalk base total (v :: b :: t) = _
    rw [specWalk]
    by_cases h : b < v
    · rw [if_pos h, ih]
      have : codeStep1 (total, base) v b = (total + (v - base), 0) := by
        simp [codeStep1, h]
      simp only [List.zip_cons_cons, List.foldl_cons, this, lastD, List.foldl_cons]
    · rw [if_neg h, ih]
      have : codeStep1 (total, base) v b = (total, base) := by
        simp [codeStep1, h]
      simp only [List.zip_cons_cons, List.foldl_cons, this, lastD, List.foldl_cons]

/-- Single-direction summary: the code's walk (with its possible skipping of the
first pair) computes the spec's segment total, provided the first pair is only
skipped when a first-pair restart was detected in some direction. -/
lemma dir_total (v0 v1 : Nat) (vs : List Nat) (drop : Prop) [Decidable drop]
    (hdrop : v1 < v0 → drop) :
    (let base := if v1 < v0 then 0 else v0
     let ps := if drop then List.zip (v1 :: vs) vs
               else List.zip (v0 :: v1 :: vs) (v1 :: vs)
     let st := ps.foldl (fun s p => codeStep1 s p.1 p.2) (0, base)
     st.1 + (lastD v1 vs - st.2)) = specSegTotal (v0 :: v1 :: vs) := by
  by_cases h1 : v1 < v0
  · have hd : drop := hdrop h1
    simp only [specSegTotal, if_pos h1, if_pos hd, specWalk_eq_codeWalk]
  · by_cases hd : drop
    · simp only [specSegTotal, if_neg h1, if_pos hd]
      rw [specWalk, if_neg h1]
      simp only [specWalk_eq_codeWalk]
    · simp only [specSegTotal, if_neg h1, if_neg hd, specWalk_eq_codeWalk, lastD,
        List.foldl_cons]

lemma foldl_last_map (rest : List TrafficRecord) (r : TrafficRecord)
    (f : TrafficRecord → Nat) :
    rest.foldl (fun _ b => f b) (f r) = f (rest.foldl (fun _ b => b) r) := by
  induction rest generalizing r with
  | nil => rfl
  | cons a t ih => simp only [List.foldl_cons, ih]

lemma foldl_codeStep1_zip_map (l l' : List TrafficRecord) (f : TrafficRecord → Nat)
    (i : Nat × Nat) :
    ((l.map f).zip (l'.map f)).foldl (fun s p => codeStep1 s p.1 p.2) i =
      (l.zip l').foldl (fun s p => codeStep1 s (f p.1) (f p.2)) i := by
  rw [List.zip_map, List.foldl_map]
  simp only [Prod.map_fst, Prod.map_snd]

lemma foldl_totalRX (ps : List (TrafficRecord × TrafficRecord)) (s : CalcState) :
    (ps.foldl (fun s p => calcStep s p.1 p.2) s).totalRX =
      (ps.foldl (fun a p => codeStep1 a p.1.rxBytes p.2.rxBytes)
        (s.totalRX, s.rxSegmentStart)).1 :=
  congrArg Prod.fst (rxPart_foldl ps s)

lemma foldl_rxSeg (ps : List (TrafficRecord × TrafficRecord)) (s : CalcState) :
    (ps.foldl (fun s p => calcStep s p.1 p.2) s).rxSegmentStart =
      (ps.foldl (fun a p => codeStep1 a p.1.rxBytes p.2.rxBytes)
        (s.totalRX, s.rxSegmentStart)).2 :=
  congrArg Prod.snd (rxPart_foldl ps s)

lemma foldl_totalTX (ps : List (TrafficRecord × TrafficRecord)) (s : CalcState) :
    (ps.foldl (fun s p => calcStep s p.1 p.2) s).totalTX =
      (ps.foldl (fun a p => codeStep1 a p.1.txBytes p.2.txBytes)
        (s.totalTX, s.txSegmentStart)).1 :=
  congrArg Prod.fst (txPart_foldl ps s)

lemma foldl_txSeg (ps : List (TrafficRecord × TrafficRecord)) (s : CalcState) :
    (ps.foldl (fun s p => calcStep s p.1 p.2) s).txSegmentStart =
      (ps.foldl (fun a p => codeStep1 a p.1.txBytes p.2.txBytes)
        (s.totalTX, s.txSegmentStart)).2 :=
  congrArg Prod.snd (txPart_foldl ps s)

lemma lastD_map (r : TrafficRecord) (rest : List TrafficRecord) (f : TrafficRecord → Nat) :
    lastD (f r) (rest.map f) = f (rest.foldl (fun _ b => b) r) := by
  rw [lastD, List.foldl_map, foldl_last_map]

/-- The RX component of the code's walk equals the spec's segment total for the
RX projection. -/
lemma dir_total_rx (r0 r1 : TrafficRecord) (rest : List TrafficRecord) :
    (let pairs := if r1.rxBytes < r0.rxBytes ∨ r1.txBytes < r0.txBytes
                  then consPairs (r1 :: rest) else consPairs (r0 :: r1 :: rest)
     let st := pairs.foldl (fun s p => calcStep s p.1 p.2)
       { totalRX := 0, totalTX := 0,
         rxSegmentStart := if r1.rxBytes < r0.rxBytes then 0 else r0.rxBytes,
         txSegmentStart := if r1.txBytes < r0.txBytes then 0 else r0.txBytes }
     st.totalRX + ((rest.foldl (fun _ r => r) r1).rxBytes - st.rxSegmentStart)) =
    specSegTotal (r0.rxBytes :: r1.rxBytes :: rest.map TrafficRecord.rxBytes) := by
  have h := dir_total r0.rxBytes r1.rxBytes (rest.map TrafficRecord.rxBytes)
    (r1.rxBytes < r0.rxBytes ∨ r1.txBytes < r0.txBytes) (fun hh => Or.inl hh)
  refine Eq.trans ?_ h
  by_cases hd : r1.rxBytes < r0.rxBytes ∨ r1.txBytes < r0.txBytes
  · simp only [if_pos hd, foldl_totalRX, foldl_rxSeg, consPairs_eq_zip, List.tail_cons,
      lastD_map, ← List.map_cons, foldl_codeStep1_zip_map]
  · simp only [if_neg hd, foldl_totalRX, foldl_rxSeg, consPairs_eq_zip, List.tail_cons,
      lastD_map, ← List.map_cons, foldl_codeStep1_zip_map]

/-- The TX component of the code's walk equals the spec's segment total for the
TX projection. -/
lemma dir_total_tx (r0 r1 : TrafficRecord) (rest : List TrafficRecord) :
    (let pairs := if r1.rxBytes < r0.rxBytes ∨ r1.txBytes < r0.txBytes
                  then consPairs (r1 :: rest) else consPairs (r0 :: r1 :: rest)
     let st := pairs.foldl (fun s p => calcStep s p.1 p.2)
       { totalRX := 0, totalTX := 0,
         rxSegmentStart := if r1.rxBytes < r0.rxBytes then 0 else r0.rxBytes,
         txSegmentStart := if r1.txBytes < r0.txBytes then 0 else r0.txBytes }
     st.totalTX + ((rest.foldl (fun _ r => r) r1).txBytes - st.txSegmentStart)) =
    specSegTotal (r0.txBytes :: r1.txBytes :: rest.map TrafficRecord.txBytes) := by
  have h := dir_total r0.txBytes r1.txBytes (rest.map TrafficRecord.txBytes)
    (r1.rxBytes < r0.rxBytes ∨ r1.txBytes < r0.txBytes) (fun hh => Or.inr hh)
  refine Eq.trans ?_ h
  by_cases hd : r1.rxBytes < r0.rxBytes ∨ r1.txBytes < r0.txBytes
  · simp only [if_pos hd, foldl_totalTX, foldl_txSeg, consPairs_eq_zip, List.tail_cons,
      lastD_map, ← List.map_cons, foldl_codeStep1_zip_map]
  · simp only [if_neg hd, foldl_totalTX, foldl_txSeg, consPairs_eq_zip, List.tail_cons,
      lastD_map, ← List.map_cons, foldl_codeStep1_zip_map]


/-- The worked example documented at `CalculateTrafficExample` in
`pkg/storage/factory.go` (example 2, using the single-direction values of the
spec's §8 reset case for both directions): cumulative counters
`[0, 100, 200, 300, 50, 150]` with one reset between the 4th and 5th sample. -/
def docExample : List TrafficRecord :=
  [⟨0, 0, 0⟩, ⟨1, 100, 100⟩, ⟨2, 200, 200⟩, ⟨3, 300, 300⟩, ⟨4, 50, 50⟩, ⟨5, 150, 150⟩]

/-- C1: for every sequence of two or more samples sorted ascending by
timestamp, `calculateTraffic` returns, independently for received and sent
bytes, exactly the total of the spec's §4.1 segment algorithm (`specSegTotal`):
base initialized to the first sample's value unless the second sample's counter
is lower, in which case the first sample is discarded and the base starts at 0;
at every later decrease, `previous − base` is added and the base resets to 0;
finally `last − base` is added.  A single-sample input yields `(0, 0)`
regardless of its values. -/
theorem C1_delta_calculator_matches_spec_algorithm (records : List TrafficRecord)
    (hsorted : List.Chain' (fun a b => a.timestamp ≤ b.timestamp) records) :
    (2 ≤ records.length →
      calculateTraffic records =
        (specSegTotal (records.map TrafficRecord.rxBytes),
         specSegTotal (records.map TrafficRecord.txBytes)))
    ∧ (∀ r : TrafficRecord, calculateTraffic [r] = (0, 0)) := by
  refine ⟨?_, fun r => rfl⟩
  intro hlen
  match records with
  | [] => simp at hlen
  | [_] => simp at hlen
  | r0 :: r1 :: rest =>
    simp only [List.map_cons]
    exact Prod.ext (dir_total_rx r0 r1 rest) (dir_total_tx r0 r1 rest)

/-- Witness for C1 at the concrete sorted six-sample input `docExample` and at
a concrete single sample. -/
theorem C1_delta_calculator_matches_spec_algorithm_witness :
    (calculateTraffic docExample =
      (specSegTotal (docExample.map TrafficRecord.rxBytes),
       specSegTotal (docExample.map TrafficRecord.txBytes)))
    ∧ calculateTraffic [⟨0, 7, 9⟩] = (0, 0) := by
  have hs : List.Chain' (fun a b : TrafficRecord => a.timestamp ≤ b.timestamp) docExample := by
    simp only [docExample, List.chain'_cons, List.chain'_singleton]
    refine ⟨?_, ?_, ?_, ?_, ?_, trivial⟩ <;> decide
  have h := C1_delta_calculator_matches_spec_algorithm docExample hs
  exact ⟨h.1 (by decide), h.2 ⟨0, 7, 9⟩⟩

/-- C2 counterexample: on the documented input `[0,100,200,300,50,150]` (both
directions) the delta calculator returns `(450, 450)`, not a total of 400: the
code resets the segment base to `0` after a detected drop (line
`rxSegmentStart = 0`), so the bytes accumulated between the reset and the first
post-reset sample (the 50) are also counted, unlike the in-source worked
comment which claims the base becomes 50 and the total 400. -/
theorem C2_docExample_total_is_450_not_400 :
    calculateTraffic docExample = (450, 450) ∧ (450 : Nat) ≠ 400 := by
  exact ⟨by decide, by decide⟩

/-- C2 amended: for the documented input the delta calculator returns 400 is
false; it returns `450 = 300 + 150` per direction, composed of the segments
`[0→300] = 300` and `[0→150] = 150` — after the detected drop the second
segment's base is `0` (so the 50 observed at the reset is included), matching
the spec's §4.1 algorithm. -/
theorem C2_amended_docExample_total_450 :
    calculateTraffic docExample = (300 + 150, 300 + 150) := by decide

/-! ## Rule matching (`pkg/pve/client.go`, `VMMatchesRule`) -/

/-- `models.VMInfo` restricted to the fields rule matching reads. -/
structure VMInfo where
  vmid : Int
  name : String
  tags : List String
deriving Repr, DecidableEq

/-- `models.Rule`.  The Go float64 fields (`LimitGB`, `RateLimitMB`) are
modelled as rationals; no claim here depends on float rounding. -/
structure Rule where
  name : String
  enabled : Bool
  period : String
  useCreationTime : Bool
  trafficDirection : String
  limitGB : Rat
  action : String
  forceStop : Bool
  rateLimitMB : Rat
  vmIDs : List Int
  vmTags : List String
  excludeVMIDs : List Int
deriving Repr, DecidableEq

/-- ASCII lower-casing, modelling Go `strings.ToLower` on the ASCII tag and
action strings this engine uses (written structurally so that concrete
instances reduce). -/
def strToLower (s : String) : String := ⟨s.data.map Char.toLower⟩

/-- `VMMatchesRule` from `pkg/pve/client.go`: deny-list first, then the VM-id
allow-list (if non-empty), then the tag allow-list (if non-empty, compared
case-insensitively via lower-casing both sides). -/
def VMMatchesRule (vm : VMInfo) (rule : Rule) : Bool :=
  if rule.excludeVMIDs.any (fun excludeID => vm.vmid == excludeID) then false
  else if rule.vmIDs.length > 0 && !(rule.vmIDs.any (fun vmid => vm.vmid == vmid)) then
    false
  else if rule.vmTags.length > 0 &&
      !(rule.vmTags.any (fun ruleTag =>
          vm.tags.any (fun vmTag => strToLower vmTag == strToLower ruleTag))) then
    false
  else true

/-- C6: `VMMatchesRule` follows the fixed precedence: it returns false whenever
the VM's id is in the rule's deny-list; otherwise a non-empty VM-id allow-list
must contain the VM's id; a non-empty tag allow-list must share a tag with the
VM case-insensitively; and a rule with both allow-lists empty matches every VM
not in its deny-list. -/
theorem C6_vm_matches_rule_precedence (vm : VMInfo) (rule : Rule) :
    (VMMatchesRule vm rule = true ↔
      (vm.vmid ∉ rule.excludeVMIDs
       ∧ (rule.vmIDs ≠ [] → vm.vmid ∈ rule.vmIDs)
       ∧ (rule.vmTags ≠ [] →
           ∃ rt ∈ rule.vmTags, ∃ t ∈ vm.tags, strToLower t = strToLower rt)))
    ∧ ((rule.vmIDs = [] ∧ rule.vmTags = []) →
        (VMMatchesRule vm rule = true ↔ vm.vmid ∉ rule.excludeVMIDs)) := by
  have hA : (rule.excludeVMIDs.any (fun excludeID => vm.vmid == excludeID)) = true ↔
      vm.vmid ∈ rule.excludeVMIDs := by
    simp
  have hB : (rule.vmIDs.length > 0 && !(rule.vmIDs.any (fun vmid => vm.vmid == vmid))) = true ↔
      (rule.vmIDs ≠ [] ∧ vm.vmid ∉ rule.vmIDs) := by
    simp [← List.length_pos_iff_ne_nil]
    exact fun _ => ⟨fun h hmem => h _ hmem rfl, fun h x hx he => h (he ▸ hx)⟩
  have hC : (rule.vmTags.length > 0 &&
      !(rule.vmTags.any (fun ruleTag =>
          vm.tags.any (fun vmTag => strToLower vmTag == strToLower ruleTag)))) = true ↔
      (rule.vmTags ≠ [] ∧
        ¬ ∃ rt ∈ rule.vmTags, ∃ t ∈ vm.tags, strToLower t = strToLower rt) := by
    simp [← List.length_pos_iff_ne_nil]
  have hmain : VMMatchesRule vm rule = true ↔
      (vm.vmid ∉ rule.excludeVMIDs
       ∧ (rule.vmIDs ≠ [] → vm.vmid ∈ rule.vmIDs)
       ∧ (rule.vmTags ≠ [] →
           ∃ rt ∈ rule.vmTags, ∃ t ∈ vm.tags, strToLower t = strToLower rt)) := by
    rw [VMMatchesRule]
    split_ifs with h1 h2 h3
    · rw [hA] at h1
      simp only [false_iff]
      intro hc
      exact hc.1 h1
    · rw [hB] at h2
      simp only [false_iff]
      rintro ⟨-, himp, -⟩
      exact h2.2 (himp h2.1)
    · rw [hC] at h3
      simp only [false_iff]
      rintro ⟨-, -, himp⟩
      exact h3.2 (himp h3.1)
    · rw [hA] at h1
      rw [hB] at h2
      rw [hC] at h3
      simp only [true_iff]
      refine ⟨h1, ?_, ?_⟩
      · intro hne
        by_contra hnin
        exact h2 ⟨hne, hnin⟩
      · intro hne
        by_contra hnex
        exact h3 ⟨hne, hnex⟩
  refine ⟨hmain, fun hemp => ?_⟩
  rw [hmain]
  simp [hemp.1, hemp.2]

/-! ## Stats cache (`pkg/ipc/socket.go`, `TrafficCache`) -/

/-- `models.TrafficStats`: the computed result held by the cache. -/
structure TrafficStats where
  vmid : Int
  period : String
  startTime : Int
  endTime : Int
  direction : String
  rxBytes : Nat
  txBytes : Nat
  totalBytes : Nat
  totalGB : Rat
deriving Repr, DecidableEq

/-- `CachedStats`: the stat, the write instant (`LastUpdate`) and the window
start it was computed for.  Instants are minutes since epoch. -/
structure CachedStats where
  stats : TrafficStats
  lastUpdate : Int
  periodStart : Int
deriving Repr, DecidableEq

/-- `TrafficCache`: keyed store plus TTL (minutes).  The Go map assignment is
modelled as prepending, with `List.lookup` taking the newest entry, which is
observationally the same for `Get`. -/
structure TrafficCache where
  cache : List (String × CachedStats)
  ttl : Int
deriving Repr, DecidableEq

/-- `makeKey`: `fmt.Sprintf("%d:%s:%s", vmid, period, direction)`. -/
def TrafficCache.makeKey (vmid : Int) (period direction : String) : String :=
  toString vmid ++ ":" ++ period ++ ":" ++ direction

/-- `NewTrafficCache`: a TTL of `0` defaults to five minutes. -/
def NewTrafficCache (ttl : Int) : TrafficCache :=
  { cache := [], ttl := if ttl = 0 then 5 else ttl }

/-- `TrafficCache.Get`: miss when the key is absent, when the stored window
start differs from the caller's freshly computed one, or when the entry's age
exceeds the TTL (`time.Since(cached.LastUpdate) > c.ttl`). -/
def TrafficCache.get (c : TrafficCache) (vmid : Int) (period direction : String)
    (periodStart : Int) (now : Int) : Option TrafficStats :=
  match c.cache.lookup (TrafficCache.makeKey vmid period direction) with
  | none => none
  | some cached =>
    if ¬ (cached.periodStart = periodStart) then none
    else if now - cached.lastUpdate > c.ttl then none
    else some cached.stats

/-- `TrafficCache.Set`: store the stat with `LastUpdate := now` and the
caller's window start. -/
def TrafficCache.set (c : TrafficCache) (vmid : Int) (period direction : String)
    (periodStart : Int) (stats : TrafficStats) (now : Int) : TrafficCache :=
  { c with cache := (TrafficCache.makeKey vmid period direction,
      { stats := stats, lastUpdate := now, periodStart := periodStart }) :: c.cache }

/-- C5: `TrafficCache.Get` returns a stored stat iff an entry exists under the
`(vmid, period, direction)` key, the entry's stored `PeriodStart` equals the
caller's freshly computed `periodStart`, and the entry's age does not exceed
the TTL (five minutes when constructed with TTL `0`).  `Set` followed by `Get`
with identical key and unchanged window start returns the stored stat, and
`Get` after a window rollover (different `periodStart`) misses regardless of
the TTL. -/
theorem C5_cache_validity_characterization (c : TrafficCache) (vmid : Int) (period direction : String)
    (periodStart now : Int) :
    (∀ s, c.get vmid period direction periodStart now = some s ↔
      ∃ e, c.cache.lookup (TrafficCache.makeKey vmid period direction) = some e ∧
        e.periodStart = periodStart ∧ now - e.lastUpdate ≤ c.ttl ∧ s = e.stats)
    ∧ (NewTrafficCache 0).ttl = 5
    ∧ (∀ stats now', now' - now ≤ c.ttl →
        (c.set vmid period direction periodStart stats now).get vmid period direction
          periodStart now' = some stats)
    ∧ (∀ stats now' ps', ps' ≠ periodStart →
        (c.set vmid period direction periodStart stats now).get vmid period direction
          ps' now' = none) := by
  refine ⟨?_, rfl, ?_, ?_⟩
  · intro s
    unfold TrafficCache.get
    cases h : c.cache.lookup (TrafficCache.makeKey vmid period direction) with
    | none => simp
    | some e =>
      by_cases hps : e.periodStart = periodStart
      · by_cases httl : now - e.lastUpdate > c.ttl
        · simp [hps, httl]
          omega
        · simp [hps, httl]
          constructor
          · intro hs
            exact ⟨by omega, hs.symm⟩
          · rintro ⟨-, hs⟩
            exact hs.symm
      · simp [hps]
  · intro stats now' hge
    unfold TrafficCache.get TrafficCache.set
    simp [List.lookup]
    omega
  · intro stats now' ps' hne
    unfold TrafficCache.get TrafficCache.set
    simp [List.lookup, hne]
    exact fun hh => absurd hh (fun h2 => hne h2.symm)
/-- Concrete stat used by witnesses. -/
def exampleStats : TrafficStats :=
  { vmid := 100, period := "day", startTime := 1000, endTime := 2440,
    direction := "both", rxBytes := 7, txBytes := 9, totalBytes := 16,
    totalGB := 0 }

/-- Witness for C5: set-then-get hit with unchanged window inside the TTL,
and a forced miss after a window rollover. -/
theorem C5_cache_validity_characterization_witness :
    ((NewTrafficCache 0).set 100 "day" "both" 1000 exampleStats 50).get
        100 "day" "both" 1000 52 = some exampleStats
    ∧ ((NewTrafficCache 0).set 100 "day" "both" 1000 exampleStats 50).get
        100 "day" "both" 2000 52 = none := by
  have h := C5_cache_validity_characterization (NewTrafficCache 0) 100 "day" "both" 1000 50
  exact ⟨h.2.2.1 exampleStats 52 (by decide), h.2.2.2 exampleStats 52 2000 (by decide)⟩

/-! ## Rule grouping in one tick (`Monitor.applyRules`, main package) -/

/-- The grouping key `StatsKey` of `applyRules`:
`(period, direction, useCreationTime)`. -/
structure StatsKey where
  period : String
  direction : String
  useCreationTime : Bool
deriving Repr, DecidableEq

/-- Effective key of a rule: the direction defaults to `"both"` when the
rule's `TrafficDirection` is unset. -/
def ruleKey (r : Rule) : StatsKey :=
  { period := r.period,
    direction := if r.trafficDirection = "" then "both" else r.trafficDirection,
    useCreationTime := r.useCreationTime }

/-- Association lookup modelling the Go `statsMap` map access. -/
def keyLookup (m : List (StatsKey × TrafficStats)) (k : StatsKey) : Option TrafficStats :=
  match m with
  | [] => none
  | (k', s) :: t => if k' = k then some s else keyLookup t k

/-- Occurrences of a key in the invocation trace. -/
def countKey (t : List StatsKey) (k : StatsKey) : Nat :=
  (t.filter (fun x => x = k)).length

/-- Phase 1 of `applyRules`: the enabled rules matching the VM. -/
def matchedRulesOf (vm : VMInfo) (rules : List Rule) : List Rule :=
  rules.filter (fun r => r.enabled && VMMatchesRule vm r)

/-- One step of phase 3 of `applyRules`: skip if the key was already computed,
otherwise invoke the stat computation (recorded in the trace); on Go error
(`compute` returns `none`) the map is not populated and the loop `continue`s. -/
def computeStep (compute : StatsKey → Option TrafficStats)
    (acc : List (StatsKey × TrafficStats) × List StatsKey) (r : Rule) :
    List (StatsKey × TrafficStats) × List StatsKey :=
  let key := ruleKey r
  if (keyLookup acc.1 key).isSome then acc
  else
    match compute key with
    | some stats => (acc.1 ++ [(key, stats)], acc.2 ++ [key])
    | none => (acc.1, acc.2 ++ [key])

/-- Phases 2–3 of `applyRules`: group the matched rules by key and compute the
stat once per distinct key.  Returns the stats map and the trace of stat
computation invocations. -/
def computeStatsPhase (compute : StatsKey → Option TrafficStats)
    (matchedRules : List Rule) :
    List (StatsKey × TrafficStats) × List StatsKey :=
  matchedRules.foldl (computeStep compute) ([], [])

/-- Phase 4 of `applyRules`: every matched rule is checked against the stat
stored for its key, and skipped if its key has no stat. -/
def checkPhase (statsMap : List (StatsKey × TrafficStats)) (matchedRules : List Rule) :
    List (Rule × TrafficStats) :=
  matchedRules.filterMap (fun r => (keyLookup statsMap (ruleKey r)).map (fun s => (r, s)))

lemma keyLookup_append_single (m : List (StatsKey × TrafficStats)) (k' : StatsKey)
    (s : TrafficStats) (k : StatsKey) :
    keyLookup (m ++ [(k', s)]) k =
      match keyLookup m k with
      | some v => some v
      | none => if k' = k then some s else none := by
  induction m with
  | nil => rfl
  | cons p t ih =>
    obtain ⟨k1, s1⟩ := p
    by_cases h : k1 = k
    · simp [keyLookup, h]
    · simp [keyLookup, h, ih]

lemma countKey_append_single (t : List StatsKey) (k' k : StatsKey) :
    countKey (t ++ [k']) k = countKey t k + (if k' = k then 1 else 0) := by
  unfold countKey
  rw [List.filter_append, List.length_append]
  by_cases h : k' = k <;> simp [h]

/-- Fold invariant for `computeStatsPhase`: for a key whose computation
succeeds, the number of invocations and the final map binding are determined
by whether the key was already bound and whether some rule in the list has it. -/
lemma computeFold_spec (compute : StatsKey → Option TrafficStats) (k : StatsKey)
    (st : TrafficStats) (hk : compute k = some st) (L : List Rule)
    (m0 : List (StatsKey × TrafficStats)) (t0 : List StatsKey) :
    (keyLookup m0 k = none →
      keyLookup (L.foldl (computeStep compute) (m0, t0)).1 k =
          (if k ∈ L.map ruleKey then some st else none)
        ∧ countKey (L.foldl (computeStep compute) (m0, t0)).2 k =
          countKey t0 k + (if k ∈ L.map ruleKey then 1 else 0))
    ∧ (∀ s0, keyLookup m0 k = some s0 →
      keyLookup (L.foldl (computeStep compute) (m0, t0)).1 k = some s0
        ∧ countKey (L.foldl (computeStep compute) (m0, t0)).2 k = countKey t0 k) := by
  induction L generalizing m0 t0 with
  | nil => simp
  | cons r L ih =>
    constructor
    · intro hnone
      rw [List.foldl_cons]
      by_cases hkey : ruleKey r = k
      · have hstep : computeStep compute (m0, t0) r = (m0 ++ [(k, st)], t0 ++ [k]) := by
          simp [computeStep, hkey, hnone, hk]
        rw [hstep]
        have hsome : keyLookup (m0 ++ [(k, st)]) k = some st := by
          rw [keyLookup_append_single, hnone]
          simp
        have h2 := (ih (m0 ++ [(k, st)]) (t0 ++ [k])).2 st hsome
        have hmem : k ∈ (r :: L).map ruleKey := by
          exact List.mem_map.mpr ⟨r, List.mem_cons_self r L, hkey⟩
        rw [h2.1, h2.2, countKey_append_single]
        have hor : k = ruleKey r ∨ ∃ a ∈ L, ruleKey a = k := Or.inl hkey.symm
        simp [hor]
      · have hpres : keyLookup (computeStep compute (m0, t0) r).1 k = none ∧
            countKey (computeStep compute (m0, t0) r).2 k = countKey t0 k := by
          by_cases hin : (keyLookup m0 (ruleKey r)).isSome
          · simp [computeStep, hin, hnone]
          · cases hc : compute (ruleKey r) <;>
              simp [computeStep, hin, hc, keyLookup_append_single,
                countKey_append_single, hnone, hkey]
        have hmem : (k ∈ (r :: L).map ruleKey) ↔ (k ∈ L.map ruleKey) := by
          simp only [List.map_cons, List.mem_cons]
          constructor
          · rintro (h | h)
            · exact absurd h.symm hkey
            · exact h
          · exact Or.inr
        have hfin := (ih (computeStep compute (m0, t0) r).1
          (computeStep compute (m0, t0) r).2).1 hpres.1
        refine ⟨?_, ?_⟩
        · rw [hfin.1]
          by_cases hm : k ∈ L.map ruleKey
          · rw [if_pos hm, if_pos (hmem.mpr hm)]
          · rw [if_neg hm, if_neg (fun hh => hm (hmem.mp hh))]
        · rw [hfin.2, hpres.2]
          by_cases hm : k ∈ L.map ruleKey
          · rw [if_pos hm, if_pos (hmem.mpr hm)]
          · rw [if_neg hm, if_neg (fun hh => hm (hmem.mp hh))]
    · intro s0 hs0
      rw [List.foldl_cons]
      have hstep : keyLookup (computeStep compute (m0, t0) r).1 k = some s0 ∧
          countKey (computeStep compute (m0, t0) r).2 k = countKey t0 k := by
        by_cases hin : (keyLookup m0 (ruleKey r)).isSome
        · simp [computeStep, hin, hs0]
        · by_cases hkey : ruleKey r = k
          · rw [hkey] at hin
            rw [hs0] at hin
            simp at hin
          · cases hc : compute (ruleKey r) <;>
              simp [computeStep, hin, hc, keyLookup_append_single,
                countKey_append_single, hs0, hkey]
      have hfin := (ih (computeStep compute (m0, t0) r).1
        (computeStep compute (m0, t0) r).2).2 s0 hstep.1
      exact ⟨hfin.1, by rw [hfin.2, hstep.2]⟩

/-- C7: within one evaluation of a single VM in one tick, the underlying stat
is computed at most once per distinct `(period, direction defaulting to both,
anchoring flag)` tuple among the matched enabled rules: two matched enabled
rules with an identical tuple whose computation succeeds trigger exactly one
underlying stat computation, and every matched rule with that tuple is then
checked against that one shared stat. -/
theorem C7_stat_computed_once_per_group (vm : VMInfo) (rules : List Rule)
    (compute : StatsKey → Option TrafficStats) (r1 r2 : Rule) (k : StatsKey)
    (st : TrafficStats)
    (h1 : r1 ∈ matchedRulesOf vm rules) (h2 : r2 ∈ matchedRulesOf vm rules)
    (hk1 : ruleKey r1 = k) (hk2 : ruleKey r2 = k)
    (hc : compute k = some st) :
    countKey (computeStatsPhase compute (matchedRulesOf vm rules)).2 k = 1
    ∧ keyLookup (computeStatsPhase compute (matchedRulesOf vm rules)).1 k = some st
    ∧ ∀ r ∈ matchedRulesOf vm rules, ruleKey r = k →
        (r, st) ∈ checkPhase (computeStatsPhase compute (matchedRulesOf vm rules)).1
          (matchedRulesOf vm rules) := by
  have hmem : k ∈ (matchedRulesOf vm rules).map ruleKey :=
    List.mem_map.mpr ⟨r1, h1, hk1⟩
  have hf := (computeFold_spec compute k st hc (matchedRulesOf vm rules) [] []).1 rfl
  rw [if_pos hmem, if_pos hmem] at hf
  refine ⟨by simpa [countKey] using hf.2, hf.1, ?_⟩
  intro r hr hkr
  have hlook : keyLookup (computeStatsPhase compute (matchedRulesOf vm rules)).1
      (ruleKey r) = some st := by
    rw [hkr]
    exact hf.1
  exact List.mem_filterMap.mpr ⟨r, hr, by rw [hlook]; rfl⟩

/-- Concrete VM, rules and oracle used by the C7 witness: two enabled rules
that differ only in name and threshold share the tuple `("day", both, fixed)`. -/
def exVM : VMInfo := { vmid := 100, name := "web", tags := [] }

def exRule1 : Rule :=
  { name := "daily-10g", enabled := true, period := "day", useCreationTime := false,
    trafficDirection := "", limitGB := 10, action := "shutdown", forceStop := false,
    rateLimitMB := 0, vmIDs := [], vmTags := [], excludeVMIDs := [] }

def exRule2 : Rule :=
  { exRule1 with name := "daily-20g", limitGB := 20 }

def exKey : StatsKey := { period := "day", direction := "both", useCreationTime := false }

/-- Witness for C7 at the concrete two-rule configuration. -/
theorem C7_stat_computed_once_per_group_witness :
    countKey (computeStatsPhase (fun _ => some exampleStats)
        (matchedRulesOf exVM [exRule1, exRule2])).2 exKey = 1
    ∧ keyLookup (computeStatsPhase (fun _ => some exampleStats)
        (matchedRulesOf exVM [exRule1, exRule2])).1 exKey = some exampleStats
    ∧ (exRule2, exampleStats) ∈ checkPhase
        (computeStatsPhase (fun _ => some exampleStats)
          (matchedRulesOf exVM [exRule1, exRule2])).1
        (matchedRulesOf exVM [exRule1, exRule2]) := by
  have h := C7_stat_computed_once_per_group exVM [exRule1, exRule2]
    (fun _ => some exampleStats) exRule1 exRule2 exKey exampleStats
    (by decide) (by decide) (by decide) (by decide) rfl
  exact ⟨h.1, h.2.1, h.2.2 exRule2 (by decide) (by decide)⟩

/-! ## Enforcement idempotency guard (`Monitor.executeAction`, main package) -/

/-- Action and marker-tag constants from `pkg/models/constants.go`. -/
def ActionShutdown : String := "shutdown"

def ActionStop : String := "stop"

def ActionDisconnect : String := "disconnect"

def ActionRateLimit : String := "rate_limit"

def TagTrafficShutdown : String := "traffic-exceeded-shutdown"

def TagTrafficDisconnect : String := "traffic-exceeded-disconnected"

def TagTrafficLimited : String := "traffic-exceeded-limited"

/-- The action-specific marker tag chosen by `executeAction`'s first switch;
`""` for an unknown action. -/
def actionTagOf (action : String) : String :=
  if action = ActionShutdown ∨ action = ActionStop then TagTrafficShutdown
  else if action = ActionDisconnect then TagTrafficDisconnect
  else if action = ActionRateLimit then TagTrafficLimited
  else ""

/-- Observable effects of one `executeAction` call. -/
structure ExecEffects where
  skipped : Bool
  stateRecorded : Bool
  primitiveCalls : List String
  tagsAdded : List String
  errored : Bool
deriving Repr, DecidableEq

/-- The early-return effects when the marker tag is already present. -/
def skipEffects : ExecEffects :=
  { skipped := true, stateRecorded := false, primitiveCalls := [],
    tagsAdded := [], errored := false }

/-- Effects of one enforcement branch: the state was recorded beforehand, one
primitive is invoked, and on success the marker tag is added. -/
def branchEffects (prim marker : String) (ok : Bool) : ExecEffects :=
  { skipped := false, stateRecorded := true, primitiveCalls := [prim],
    tagsAdded := if ok then [marker] else [], errored := !ok }

/-- `Monitor.executeAction` with the external client abstracted: `getTags` is
the result of `GetVMTags` (`none` models an error, in which case the guard is
skipped), `primitiveOk` the success of the invoked enforcement primitive.
Mirrors the Go flow: marker-tag guard (case-insensitive on the VM tag), then
`RecordVMState` (always attempted; its error only logged), then the action
switch adding the marker tag on success. -/
def executeAction (rule : Rule) (getTags : Option (List String))
    (primitiveOk : Bool) : ExecEffects :=
  let actionTag := actionTagOf rule.action
  let tagsHaveMarker : Bool :=
    match getTags with
    | some tags => tags.any (fun tag => strToLower tag == actionTag)
    | none => false
  if actionTag ≠ "" ∧ tagsHaveMarker then skipEffects
  else if rule.action = ActionShutdown then
    if rule.forceStop then branchEffects "StopVM" TagTrafficShutdown primitiveOk
    else branchEffects "ShutdownVM" TagTrafficShutdown primitiveOk
  else if rule.action = ActionStop then
    branchEffects "StopVM" TagTrafficShutdown primitiveOk
  else if rule.action = ActionDisconnect then
    branchEffects "DisconnectNetwork" TagTrafficDisconnect primitiveOk
  else if rule.action = ActionRateLimit then
    branchEffects "SetNetworkRateLimit" TagTrafficLimited primitiveOk
  else
    { skipped := false, stateRecorded := true, primitiveCalls := [],
      tagsAdded := [], errored := true }

lemma executeAction_skips (rule : Rule) (tags : List String) (ok : Bool)
    (hact : actionTagOf rule.action ≠ "")
    (hmark : ∃ t ∈ tags, strToLower t = actionTagOf rule.action) :
    executeAction rule (some tags) ok = skipEffects := by
  unfold executeAction
  have hb : (tags.any (fun tag => strToLower tag == actionTagOf rule.action)) = true := by
    obtain ⟨t, ht, he⟩ := hmark
    exact List.any_eq_true.mpr ⟨t, ht, by simp [he]⟩
  rw [if_pos ⟨hact, hb⟩]

lemma executeAction_runs (rule : Rule) (tags0 : List String) (ok : Bool)
    (hact : rule.action = ActionShutdown ∨ rule.action = ActionStop ∨
            rule.action = ActionDisconnect ∨ rule.action = ActionRateLimit)
    (hm : ¬ ∃ t ∈ tags0, strToLower t = actionTagOf rule.action) :
    ∃ prim, executeAction rule (some tags0) ok =
      branchEffects prim (actionTagOf rule.action) ok := by
  have hbn : (tags0.any (fun tag => strToLower tag == actionTagOf rule.action)) = false := by
    rw [List.any_eq_false]
    intro t ht
    simp only [beq_iff_eq]
    exact fun he => hm ⟨t, ht, he⟩
  unfold executeAction
  rw [if_neg (by simp [hbn])]
  rcases hact with h | h | h | h <;> rw [h]
  · by_cases hf : rule.forceStop
    · exact ⟨"StopVM", by simp [hf, ActionShutdown, actionTagOf]⟩
    · exact ⟨"ShutdownVM", by simp [hf, ActionShutdown, actionTagOf]⟩
  · exact ⟨"StopVM", by simp [ActionStop, ActionShutdown, actionTagOf]⟩
  · exact ⟨"DisconnectNetwork", by
      simp [ActionDisconnect, ActionStop, ActionShutdown, actionTagOf]⟩
  · exact ⟨"SetNetworkRateLimit", by
      simp [ActionRateLimit, ActionDisconnect, ActionStop, ActionShutdown, actionTagOf]⟩

/-- C8: if the action-specific marker tag for the rule's action is already
present among the resource's tags (compared case-insensitively), then
`executeAction` returns without invoking any enforcement primitive and without
recording a new enforcement state; hence two evaluations in a row perform the
enforcement primitive at most once in total (the first successful run adds the
marker, which makes the second run skip). -/
theorem C8_enforcement_idempotency_guard (rule : Rule) (tags : List String) (ok : Bool)
    (hact : rule.action = ActionShutdown ∨ rule.action = ActionStop ∨
            rule.action = ActionDisconnect ∨ rule.action = ActionRateLimit)
    (hmark : ∃ t ∈ tags, strToLower t = actionTagOf rule.action) :
    executeAction rule (some tags) ok = skipEffects
    ∧ ∀ tags0 ok2,
      ((executeAction rule (some tags0) true).primitiveCalls ++
       (executeAction rule
          (some (tags0 ++ (executeAction rule (some tags0) true).tagsAdded))
          ok2).primitiveCalls).length ≤ 1 := by
  have hTagNe : actionTagOf rule.action ≠ "" := by
    rcases hact with h | h | h | h <;> rw [h] <;> decide
  refine ⟨executeAction_skips rule tags ok hTagNe hmark, ?_⟩
  intro tags0 ok2
  by_cases hm : ∃ t ∈ tags0, strToLower t = actionTagOf rule.action
  · rw [executeAction_skips rule tags0 true hTagNe hm]
    rw [show tags0 ++ skipEffects.tagsAdded = tags0 from by simp [skipEffects]]
    rw [executeAction_skips rule tags0 ok2 hTagNe hm]
    simp [skipEffects]
  · obtain ⟨prim, he1⟩ := executeAction_runs rule tags0 true hact hm
    rw [he1]
    have hmark2 : ∃ t ∈ tags0 ++ (branchEffects prim (actionTagOf rule.action)
        true).tagsAdded, strToLower t = actionTagOf rule.action := by
      refine ⟨actionTagOf rule.action, ?_, ?_⟩
      · simp [branchEffects]
      · rcases hact with h | h | h | h <;> rw [h] <;> decide
    rw [executeAction_skips rule _ ok2 hTagNe hmark2]
    simp [branchEffects, skipEffects]
/-- Witness for C8: a disconnect rule whose marker tag is present upper-cased,
plus the two-in-a-row bound at a concrete tag list. -/
theorem C8_enforcement_idempotency_guard_witness :
    executeAction { exRule1 with action := "disconnect" }
        (some ["web", "TRAFFIC-Exceeded-DISCONNECTED"]) true = skipEffects
    ∧ ((executeAction { exRule1 with action := "disconnect" } (some ["web"]) true).primitiveCalls ++
       (executeAction { exRule1 with action := "disconnect" }
          (some (["web"] ++ (executeAction { exRule1 with action := "disconnect" }
            (some ["web"]) true).tagsAdded)) true).primitiveCalls).length ≤ 1 := by
  have h := C8_enforcement_idempotency_guard { exRule1 with action := "disconnect" }
    ["web", "TRAFFIC-Exceeded-DISCONNECTED"] true
    (Or.inr (Or.inr (Or.inl rfl)))
    ⟨"TRAFFIC-Exceeded-DISCONNECTED", by decide, by decide⟩
  exact ⟨h.1, h.2 ["web"] true⟩

/-! ## Enforcement state records (`models.VMStateManager`) and recovery
(`recovery.Manager`, whose source appears in the repository README). -/

/-- `models.VMState`.  Instants are minutes since epoch; the Go float64 rate
limit is modelled as a rational. -/
structure VMState where
  vmid : Int
  originalStatus : String
  originalRateLimit : Rat
  actionTaken : String
  actionTime : Int
  period : String
  ruleName : String
  needsRecovery : Bool
  recoveryTime : Int
deriving Repr, DecidableEq

/-- Lookup in the keyed-by-vmid map `VMStateManager.States`. -/
def stateLookup (m : List (Int × VMState)) (vmid : Int) : Option VMState :=
  match m with
  | [] => none
  | p :: t => if p.1 = vmid then some p.2 else stateLookup t vmid

/-- Go map assignment `m.States[state.VMID] = state`: replace the existing
binding in place, else append. -/
def stateInsert : List (Int × VMState) → VMState → List (Int × VMState)
  | [], s => [(s.vmid, s)]
  | p :: t, s => if p.1 = s.vmid then (s.vmid, s) :: t else p :: stateInsert t s

/-- `VMStateManager.RecordState`. -/
def RecordState (m : List (Int × VMState)) (s : VMState) : List (Int × VMState) :=
  stateInsert m s

/-- `VMStateManager.RemoveState` (Go `delete`). -/
def RemoveState (m : List (Int × VMState)) (vmid : Int) : List (Int × VMState) :=
  m.filter (fun p => p.1 ≠ vmid)

/-- `Manager.RecordVMState` (README listing): fetch the VM status (`none`
models an error, returned before recording); otherwise build a fresh `VMState`
snapshot (the rate limit stays `0.0`: the parsing TODO never assigns it) and
unconditionally assign it into the keyed map. -/
def RecordVMState (m : List (Int × VMState)) (vmid : Int)
    (action period ruleName : String) (statusFetch : Option String)
    (now recoveryTime : Int) : List (Int × VMState) × Bool :=
  match statusFetch with
  | none => (m, false)
  | some status =>
    (RecordState m
      { vmid := vmid, originalStatus := status, originalRateLimit := 0,
        actionTaken := action, actionTime := now, period := period,
        ruleName := ruleName, needsRecovery := true, recoveryTime := recoveryTime },
     true)

lemma stateLookup_insert_self (m : List (Int × VMState)) (s : VMState) :
    stateLookup (stateInsert m s) s.vmid = some s := by
  induction m with
  | nil => simp [stateInsert, stateLookup]
  | cons p t ih =>
    by_cases h : p.1 = s.vmid
    · simp [stateInsert, h, stateLookup]
    · simp [stateInsert, h, stateLookup, ih]

lemma stateLookup_insert_ne (m : List (Int × VMState)) (s : VMState) (k : Int)
    (hk : k ≠ s.vmid) :
    stateLookup (stateInsert m s) k = stateLookup m k := by
  induction m with
  | nil => simp [stateInsert, stateLookup, Ne.symm hk]
  | cons p t ih =>
    by_cases h : p.1 = s.vmid
    · simp [stateInsert, h, stateLookup, Ne.symm hk, hk]
    · simp [stateInsert, h, stateLookup, ih]

lemma mem_keys_insert (m : List (Int × VMState)) (s : VMState) (k : Int) :
    k ∈ (stateInsert m s).map Prod.fst ↔ k ∈ m.map Prod.fst ∨ k = s.vmid := by
  induction m with
  | nil => simp [stateInsert]
  | cons p t ih =>
    by_cases h : p.1 = s.vmid
    · simp [stateInsert, h]
      tauto
    · simp only [stateInsert, if_neg h, List.map_cons, List.mem_cons, ih]
      tauto

lemma keys_nodup_insert (m : List (Int × VMState)) (s : VMState)
    (hwf : (m.map Prod.fst).Nodup) :
    ((stateInsert m s).map Prod.fst).Nodup := by
  induction m with
  | nil => simp [stateInsert]
  | cons p t ih =>
    rw [List.map_cons, List.nodup_cons] at hwf
    by_cases h : p.1 = s.vmid
    · simp only [stateInsert, if_pos h, List.map_cons, List.nodup_cons]
      exact ⟨h ▸ hwf.1, hwf.2⟩
    · simp only [stateInsert, if_neg h, List.map_cons, List.nodup_cons]
      refine ⟨?_, ih hwf.2⟩
      rw [mem_keys_insert]
      rintro (hh | hh)
      · exact hwf.1 hh
      · exact h hh

lemma keys_nodup_remove (m : List (Int × VMState)) (vmid : Int)
    (hwf : (m.map Prod.fst).Nodup) :
    ((RemoveState m vmid).map Prod.fst).Nodup :=
  ((m.filter_sublist).map Prod.fst).nodup hwf

/-- Outcomes of the control-plane calls `RecoverVM` can make. -/
structure RecoveryClient where
  startOk : Bool
  connectOk : Bool
  setLimitOk : Bool
  removeLimitOk : Bool
deriving Repr, DecidableEq

/-- Result of `Manager.RecoverVM`: whether an error was returned, the updated
state map, and the restoration primitives attempted with their outcomes. -/
structure RecoverResult where
  errored : Bool
  states : List (Int × VMState)
  calls : List (String × Bool)
deriving Repr, DecidableEq

/-- `Manager.RecoverVM` (README listing).  Shutdown/stop states restart the VM
only if it was originally running, and a `StartVM` failure returns before
`RemoveState`; likewise a `ConnectNetwork` failure for disconnect states.  For
rate-limit states the code calls `SetNetworkRateLimit` (or
`RemoveNetworkRateLimit` when the original limit was 0) and DISCARDS the
returned error, so it always proceeds to strip the tags and remove the state.
Tag cleanup and persistence happen outside this claim and are not modelled. -/
def RecoverVM (states : List (Int × VMState)) (client : RecoveryClient)
    (vmid : Int) : RecoverResult :=
  match stateLookup states vmid with
  | none => { errored := true, states := states, calls := [] }
  | some state =>
    if state.actionTaken = ActionShutdown ∨ state.actionTaken = ActionStop then
      if state.originalStatus = "running" then
        if client.startOk then
          { errored := false, states := RemoveState states vmid,
            calls := [("StartVM", true)] }
        else
          { errored := true, states := states, calls := [("StartVM", false)] }
      else
        { errored := false, states := RemoveState states vmid, calls := [] }
    else if state.actionTaken = ActionDisconnect then
      if client.connectOk then
        { errored := false, states := RemoveState states vmid,
          calls := [("ConnectNetwork", true)] }
      else
        { errored := true, states := states, calls := [("ConnectNetwork", false)] }
    else if state.actionTaken = ActionRateLimit then
      if state.originalRateLimit = 0 then
        { errored := false, states := RemoveState states vmid,
          calls := [("RemoveNetworkRateLimit", client.removeLimitOk)] }
      else
        { errored := false, states := RemoveState states vmid,
          calls := [("SetNetworkRateLimit", client.setLimitOk)] }
    else
      { errored := false, states := RemoveState states vmid, calls := [] }

/-- The outstanding rate-limit enforcement record used by the C9
counterexample. -/
def stRate : VMState :=
  { vmid := 100, originalStatus := "running", originalRateLimit := 50,
    actionTaken := "rate_limit", actionTime := 0, period := "day",
    ruleName := "daily-10g", needsRecovery := true, recoveryTime := 1440 }

lemma stateLookup_remove_self (m : List (Int × VMState)) (vmid : Int) :
    stateLookup (RemoveState m vmid) vmid = none := by
  induction m with
  | nil => rfl
  | cons p t ih =>
    by_cases h : p.1 = vmid
    · simpa [RemoveState, h] using ih
    · simpa [RemoveState, h, stateLookup] using ih

/-- C9 counterexample: for an outstanding rate-limit enforcement record whose
restoration call `SetNetworkRateLimit` fails, `RecoverVM` still removes the
record (and reports success): the Go code discards that call's error. -/
theorem C9_failed_ratelimit_restore_still_removes_state :
    (RecoverVM [(100, stRate)] ⟨true, true, false, true⟩ 100).calls =
        [("SetNetworkRateLimit", false)]
    ∧ stateLookup (RecoverVM [(100, stRate)] ⟨true, true, false, true⟩ 100).states 100
        = none
    ∧ (RecoverVM [(100, stRate)] ⟨true, true, false, true⟩ 100).errored = false := by
  refine ⟨by decide, by decide, by decide⟩

/-- C9 amended: a failed `StartVM` (shutdown/stop state originally running) or
`ConnectNetwork` (disconnect state) restoration leaves the `EnforcementState`
in place to be retried, and the record is removed when those steps succeed;
but for rate-limit states the restoration call's error is discarded and the
record is removed regardless of the call's outcome. -/
theorem C9_restore_failure_keeps_state_except_ratelimit
    (states : List (Int × VMState)) (client : RecoveryClient) (vmid : Int)
    (state : VMState) (hlook : stateLookup states vmid = some state) :
    ((state.actionTaken = ActionShutdown ∨ state.actionTaken = ActionStop) →
      state.originalStatus = "running" → client.startOk = false →
      (RecoverVM states client vmid).errored = true
        ∧ (RecoverVM states client vmid).states = states)
    ∧ (state.actionTaken = ActionDisconnect → client.connectOk = false →
      (RecoverVM states client vmid).errored = true
        ∧ (RecoverVM states client vmid).states = states)
    ∧ (state.actionTaken = ActionRateLimit →
      stateLookup (RecoverVM states client vmid).states vmid = none)
    ∧ ((state.actionTaken = ActionShutdown ∨ state.actionTaken = ActionStop) →
      state.originalStatus = "running" → client.startOk = true →
      stateLookup (RecoverVM states client vmid).states vmid = none)
    ∧ (state.actionTaken = ActionDisconnect → client.connectOk = true →
      stateLookup (RecoverVM states client vmid).states vmid = none) := by
  refine ⟨?_, ?_, ?_, ?_, ?_⟩
  · intro hact hrun hfail
    unfold RecoverVM
    rw [hlook]
    simp [hact, hrun, hfail]
  · intro hact hfail
    unfold RecoverVM
    rw [hlook]
    simp [hact, hfail, ActionDisconnect, ActionShutdown, ActionStop]
  · intro hact
    unfold RecoverVM
    rw [hlook]
    by_cases hz : state.originalRateLimit = 0 <;>
      simp [hact, hz, ActionRateLimit, ActionDisconnect, ActionShutdown, ActionStop,
        stateLookup_remove_self]
  · intro hact hrun hok
    unfold RecoverVM
    rw [hlook]
    simp [hact, hrun, hok, stateLookup_remove_self]
  · intro hact hok
    unfold RecoverVM
    rw [hlook]
    simp [hact, hok, ActionDisconnect, ActionShutdown, ActionStop,
      stateLookup_remove_self]

/-- The outstanding shutdown enforcement record used by witnesses. -/
def stShut : VMState :=
  { vmid := 100, originalStatus := "running", originalRateLimit := 0,
    actionTaken := "shutdown", actionTime := 5, period := "day",
    ruleName := "daily-10g", needsRecovery := true, recoveryTime := 1440 }

/-- Witness for the amended C9: a failing restart leaves the record in place;
a succeeding one removes it. -/
theorem C9_restore_failure_keeps_state_except_ratelimit_witness :
    ((RecoverVM [(100, stShut)] ⟨false, true, true, true⟩ 100).errored = true
      ∧ (RecoverVM [(100, stShut)] ⟨false, true, true, true⟩ 100).states = [(100, stShut)])
    ∧ stateLookup (RecoverVM [(100, stShut)] ⟨true, true, true, true⟩ 100).states 100
        = none := by
  refine ⟨(C9_restore_failure_keeps_state_except_ratelimit [(100, stShut)]
      ⟨false, true, true, true⟩ 100 stShut (by decide)).1 (Or.inl rfl) rfl rfl, ?_⟩
  exact (C9_restore_failure_keeps_state_except_ratelimit [(100, stShut)]
      ⟨true, true, true, true⟩ 100 stShut (by decide)).2.2.2.1 (Or.inl rfl) rfl rfl

/-- C10: `RecordState` (and `RecordVMState` on a successful status fetch)
unconditionally assigns the fresh snapshot into the keyed-by-vmid map: any
earlier record for the same resource is replaced, never rejected, other keys
are untouched, and the map keeps at most one record per resource (distinct
keys) after `RecordState` and `RemoveState`. -/
theorem C10_record_state_overwrites (m : List (Int × VMState)) (s : VMState)
    (hwf : (m.map Prod.fst).Nodup) :
    stateLookup (RecordState m s) s.vmid = some s
    ∧ (∀ k, k ≠ s.vmid → stateLookup (RecordState m s) k = stateLookup m k)
    ∧ ((RecordState m s).map Prod.fst).Nodup
    ∧ (∀ vmid, ((RemoveState m vmid).map Prod.fst).Nodup)
    ∧ (∀ status now recoveryTime,
        stateLookup (RecordVMState m s.vmid s.actionTaken s.period s.ruleName
          (some status) now recoveryTime).1 s.vmid =
        some { vmid := s.vmid, originalStatus := status, originalRateLimit := 0,
               actionTaken := s.actionTaken, actionTime := now, period := s.period,
               ruleName := s.ruleName, needsRecovery := true,
               recoveryTime := recoveryTime }) := by
  refine ⟨stateLookup_insert_self m s, fun k hk => stateLookup_insert_ne m s k hk,
    keys_nodup_insert m s hwf, fun vmid => keys_nodup_remove m vmid hwf, ?_⟩
  intro status now recoveryTime
  exact stateLookup_insert_self m _

/-- Witness for C10: recording over an existing record for resource 100
replaces it. -/
theorem C10_record_state_overwrites_witness :
    stateLookup (RecordState [(100, stRate)] stShut) 100 = some stShut
    ∧ stateLookup (RecordState [(100, stRate)] stShut) 101 = none := by
  have h := C10_record_state_overwrites [(100, stRate)] stShut (by decide)
  exact ⟨h.1, (h.2.1 101 (by decide)).trans (by decide)⟩


/-! ## Civil-calendar time model and the period boundary calculator
(`pkg/period/calculator.go`, `pkg/storage/storage.go`). -/


structure DateTime where
  year : Int
  month : Int
  day : Int
  hour : Int
  minute : Int
deriving Repr, DecidableEq

/-- Proleptic-Gregorian leap year, as Go's `isLeap`: divisibility by a
positive constant is the same for Go's truncated `%` and Lean's Euclidean
`%`. -/
def isLeap (y : Int) : Bool := (y % 4 == 0 && y % 100 != 0) || y % 400 == 0

def daysInMonth (y m : Int) : Int :=
  if m = 2 then (if isLeap y then 29 else 28)
  else if m = 4 ∨ m = 6 ∨ m = 9 ∨ m = 11 then 30
  else 31

def nextMonth (y m : Int) : Int × Int := if m = 12 then (y + 1, 1) else (y, m + 1)

def prevMonth (y m : Int) : Int × Int := if m = 1 then (y - 1, 12) else (y, m - 1)

/-- Normalize a month index into `[1, 12]`, carrying whole years. -/
def normMonth (y m : Int) : Int × Int := (y + (m - 1) / 12, (m - 1) % 12 + 1)

/-- Walk an over-large day-of-month forward through months.  Each step removes
at least 28 days, so `d.toNat` steps of fuel always suffice. -/
def carryDay : Nat → Int → Int → Int → Int × Int × Int
  | 0, y, m, d => (y, m, d)
  | fuel + 1, y, m, d =>
    if d ≤ daysInMonth y m then (y, m, d)
    else carryDay fuel (nextMonth y m).1 (nextMonth y m).2 (d - daysInMonth y m)

/-- Walk a non-positive day-of-month backward through months. -/
def borrowDay : Nat → Int → Int → Int → Int × Int × Int
  | 0, y, m, d => (y, m, d)
  | fuel + 1, y, m, d =>
    if 1 ≤ d then (y, m, d)
    else borrowDay fuel (prevMonth y m).1 (prevMonth y m).2
      (d + daysInMonth (prevMonth y m).1 (prevMonth y m).2)

def normDay (y m d : Int) : Int × Int × Int :=
  if d < 1 then borrowDay (1 - d).toNat y m d else carryDay d.toNat y m d

/-- Go `time.Date(y, m, d, hh, mm, 0, 0, loc)` at minute granularity:
normalize minutes into hours and hours into days (floor semantics, as Go's
`norm`), the month into the year, then the day by walking months — the civil
decomposition of the instant Go's `Date` denotes. -/
def mkDate (y m d h mi : Int) : DateTime :=
  let mi' := mi % 60
  let h2 := h + mi / 60
  let h' := h2 % 24
  let d2 := d + h2 / 24
  let p := normMonth y m
  let q := normDay p.1 p.2 d2
  ⟨q.1, q.2.1, q.2.2, h', mi'⟩

/-- Days from the epoch (Jan 1 of year 1) to Jan 1 of year `y`. -/
def daysBeforeYear (y : Int) : Int :=
  365 * (y - 1) + (y - 1) / 4 - (y - 1) / 100 + (y - 1) / 400

/-- Days from Jan 1 to the first of month `m ∈ [1, 12]` of year `y`. -/
def daysBeforeMonth (y m : Int) : Int :=
  (if m = 1 then 0 else if m = 2 then 31 else if m = 3 then 59
   else if m = 4 then 90 else if m = 5 then 120 else if m = 6 then 151
   else if m = 7 then 181 else if m = 8 then 212 else if m = 9 then 243
   else if m = 10 then 273 else if m = 11 then 304 else 334)
  + (if 3 ≤ m ∧ isLeap y = true then 1 else 0)

/-- Minutes from the epoch to the instant `t` (the absolute instant a
normalized `DateTime` denotes). -/
def toMinutes (t : DateTime) : Int :=
  (daysBeforeYear t.year + daysBeforeMonth t.year t.month + (t.day - 1)) * 1440
    + t.hour * 60 + t.minute

/-- Day count from the epoch to the first of month `(y, m)`. -/
def monthVal (y m : Int) : Int := daysBeforeYear y + daysBeforeMonth y m

/-- Day count of a `(year, month, day)` triple. -/
def dayVal (p : Int × Int × Int) : Int := monthVal p.1 p.2.1 + (p.2.2 - 1)

lemma dim_bounds (y m : Int) : 28 ≤ daysInMonth y m ∧ daysInMonth y m ≤ 31 := by
  unfold daysInMonth
  split_ifs <;> omega

lemma daysBeforeYear_succ (y : Int) :
    daysBeforeYear (y + 1) = daysBeforeYear y + 365 + (if isLeap y then 1 else 0) := by
  unfold daysBeforeYear isLeap
  simp only [add_sub_cancel_right, Bool.or_eq_true, Bool.and_eq_true, beq_iff_eq,
    bne_iff_ne, ne_eq]
  split_ifs with h
  · omega
  · omega

lemma daysBeforeMonth_succ (y m : Int) (h1 : 1 ≤ m) (h2 : m ≤ 11) :
    daysBeforeMonth y (m + 1) = daysBeforeMonth y m + daysInMonth y m := by
  unfold daysBeforeMonth daysInMonth
  interval_cases m <;> norm_num <;> split_ifs <;> omega

lemma monthVal_next (y m : Int) (h1 : 1 ≤ m) (h2 : m ≤ 12) :
    monthVal (nextMonth y m).1 (nextMonth y m).2 = monthVal y m + daysInMonth y m := by
  unfold monthVal nextMonth
  by_cases h : m = 12
  · rw [if_pos h, h]
    show daysBeforeYear (y + 1) + daysBeforeMonth (y + 1) 1 = _
    rw [daysBeforeYear_succ]
    unfold daysBeforeMonth daysInMonth
    norm_num
    split_ifs <;> omega
  · rw [if_neg h]
    show daysBeforeYear y + daysBeforeMonth y (m + 1) = _
    rw [daysBeforeMonth_succ y m h1 (by omega)]
    omega

lemma monthVal_prev (y m : Int) (h1 : 1 ≤ m) (h2 : m ≤ 12) :
    monthVal (prevMonth y m).1 (prevMonth y m).2
      + daysInMonth (prevMonth y m).1 (prevMonth y m).2 = monthVal y m := by
  have hrange : 1 ≤ (prevMonth y m).2 ∧ (prevMonth y m).2 ≤ 12 := by
    unfold prevMonth
    split_ifs <;> simp <;> omega
  have hnext : nextMonth (prevMonth y m).1 (prevMonth y m).2 = (y, m) := by
    unfold prevMonth nextMonth
    split_ifs <;> simp_all <;> omega
  have h := monthVal_next (prevMonth y m).1 (prevMonth y m).2 hrange.1 hrange.2
  rw [hnext] at h
  simp at h
  omega

lemma nextMonth_range (y m : Int) (h1 : 1 ≤ m) (h2 : m ≤ 12) :
    1 ≤ (nextMonth y m).2 ∧ (nextMonth y m).2 ≤ 12 := by
  unfold nextMonth
  split_ifs <;> simp <;> omega

lemma prevMonth_range (y m : Int) (h1 : 1 ≤ m) (h2 : m ≤ 12) :
    1 ≤ (prevMonth y m).2 ∧ (prevMonth y m).2 ≤ 12 := by
  unfold prevMonth
  split_ifs <;> simp <;> omega

lemma carryDay_spec (fuel : Nat) (y m d : Int) (h1 : 1 ≤ m) (h2 : m ≤ 12) :
    dayVal (carryDay fuel y m d) = dayVal (y, m, d)
      ∧ 1 ≤ (carryDay fuel y m d).2.1 ∧ (carryDay fuel y m d).2.1 ≤ 12 := by
  induction fuel generalizing y m d with
  | zero => exact ⟨rfl, h1, h2⟩
  | succ fuel ih =>
    rw [carryDay]
    split_ifs with hd
    · exact ⟨rfl, h1, h2⟩
    · have hr := nextMonth_range y m h1 h2
      have hi := ih (nextMonth y m).1 (nextMonth y m).2 (d - daysInMonth y m) hr.1 hr.2
      refine ⟨?_, hi.2⟩
      rw [hi.1]
      unfold dayVal
      have hn := monthVal_next y m h1 h2
      simp only at *
      omega

lemma borrowDay_spec (fuel : Nat) (y m d : Int) (h1 : 1 ≤ m) (h2 : m ≤ 12) :
    dayVal (borrowDay fuel y m d) = dayVal (y, m, d)
      ∧ 1 ≤ (borrowDay fuel y m d).2.1 ∧ (borrowDay fuel y m d).2.1 ≤ 12 := by
  induction fuel generalizing y m d with
  | zero => exact ⟨rfl, h1, h2⟩
  | succ fuel ih =>
    rw [borrowDay]
    split_ifs with hd
    · exact ⟨rfl, h1, h2⟩
    · have hr := prevMonth_range y m h1 h2
      have hi := ih (prevMonth y m).1 (prevMonth y m).2
        (d + daysInMonth (prevMonth y m).1 (prevMonth y m).2) hr.1 hr.2
      refine ⟨?_, hi.2⟩
      rw [hi.1]
      unfold dayVal
      have hp := monthVal_prev y m h1 h2
      simp only at *
      omega

lemma carryDay_day_range (fuel : Nat) (y m d : Int) (h1 : 1 ≤ m) (h2 : m ≤ 12)
    (hd : 1 ≤ d) (hfuel : d.toNat ≤ fuel) :
    1 ≤ (carryDay fuel y m d).2.2
      ∧ (carryDay fuel y m d).2.2 ≤
        daysInMonth (carryDay fuel y m d).1 (carryDay fuel y m d).2.1 := by
  induction fuel generalizing y m d with
  | zero => omega
  | succ fuel ih =>
    rw [carryDay]
    split_ifs with hlt
    · exact ⟨hd, hlt⟩
    · have hr := nextMonth_range y m h1 h2
      have hb := dim_bounds y m
      exact ih (nextMonth y m).1 (nextMonth y m).2 (d - daysInMonth y m) hr.1 hr.2
        (by omega) (by omega)

lemma borrowDay_of_pos (fuel : Nat) (y m d : Int) (h : 1 ≤ d) :
    borrowDay fuel y m d = (y, m, d) := by
  cases fuel with
  | zero => rfl
  | succ fuel => rw [borrowDay, if_pos h]

lemma borrowDay_day_range (fuel : Nat) (y m d : Int) (h1 : 1 ≤ m) (h2 : m ≤ 12)
    (hd : d ≤ 0) (hfuel : (1 - d).toNat ≤ fuel) :
    1 ≤ (borrowDay fuel y m d).2.2
      ∧ (borrowDay fuel y m d).2.2 ≤
        daysInMonth (borrowDay fuel y m d).1 (borrowDay fuel y m d).2.1 := by
  induction fuel generalizing y m d with
  | zero => omega
  | succ fuel ih =>
    rw [borrowDay]
    split_ifs with hge
    · omega
    · have hr := prevMonth_range y m h1 h2
      have hb := dim_bounds (prevMonth y m).1 (prevMonth y m).2
      by_cases hstop : 1 ≤ d + daysInMonth (prevMonth y m).1 (prevMonth y m).2
      · rw [borrowDay_of_pos fuel _ _ _ hstop]
        exact ⟨hstop, show d + daysInMonth (prevMonth y m).1 (prevMonth y m).2 ≤
          daysInMonth (prevMonth y m).1 (prevMonth y m).2 from by omega⟩
      · exact ih (prevMonth y m).1 (prevMonth y m).2 _ hr.1 hr.2 (by omega) (by omega)

lemma normDay_spec (y m d : Int) (h1 : 1 ≤ m) (h2 : m ≤ 12) :
    dayVal (normDay y m d) = dayVal (y, m, d)
      ∧ 1 ≤ (normDay y m d).2.1 ∧ (normDay y m d).2.1 ≤ 12
      ∧ 1 ≤ (normDay y m d).2.2
      ∧ (normDay y m d).2.2 ≤ daysInMonth (normDay y m d).1 (normDay y m d).2.1 := by
  unfold normDay
  split_ifs with hd
  · have hs := borrowDay_spec (1 - d).toNat y m d h1 h2
    have hr := borrowDay_day_range (1 - d).toNat y m d h1 h2 (by omega) (le_refl _)
    exact ⟨hs.1, hs.2.1, hs.2.2, hr.1, hr.2⟩
  · have hs := carryDay_spec d.toNat y m d h1 h2
    have hr := carryDay_day_range d.toNat y m d h1 h2 (by omega) (le_refl _)
    exact ⟨hs.1, hs.2.1, hs.2.2, hr.1, hr.2⟩

lemma normMonth_range (y m : Int) :
    1 ≤ (normMonth y m).2 ∧ (normMonth y m).2 ≤ 12 := by
  unfold normMonth
  simp only
  omega

lemma normMonth_id (y m : Int) (h1 : 1 ≤ m) (h2 : m ≤ 12) : normMonth y m = (y, m) := by
  unfold normMonth
  exact Prod.ext (by simp; omega) (by simp; omega)

/-- The civil ranges of a valid `DateTime`. -/
def Normalized (t : DateTime) : Prop :=
  1 ≤ t.month ∧ t.month ≤ 12 ∧ 1 ≤ t.day ∧ t.day ≤ daysInMonth t.year t.month
    ∧ 0 ≤ t.hour ∧ t.hour < 24 ∧ 0 ≤ t.minute ∧ t.minute < 60

instance (t : DateTime) : Decidable (Normalized t) := by
  unfold Normalized
  infer_instance

lemma mkDate_normalized (y m d h mi : Int) : Normalized (mkDate y m d h mi) := by
  unfold mkDate Normalized
  simp only
  have hr := normMonth_range y m
  have hs := normDay_spec (normMonth y m).1 (normMonth y m).2 (d + (h + mi / 60) / 24)
    hr.1 hr.2
  exact ⟨hs.2.1, hs.2.2.1, hs.2.2.2.1, hs.2.2.2.2, by omega, by omega, by omega, by omega⟩

lemma toMinutes_mkDate (y m d h mi : Int) :
    toMinutes (mkDate y m d h mi) =
      (monthVal (normMonth y m).1 (normMonth y m).2 + (d - 1)) * 1440 + h * 60 + mi := by
  unfold mkDate toMinutes
  simp only
  have hr := normMonth_range y m
  have hs := (normDay_spec (normMonth y m).1 (normMonth y m).2 (d + (h + mi / 60) / 24)
    hr.1 hr.2).1
  unfold dayVal at hs
  unfold monthVal at hs ⊢
  simp only at hs
  omega

lemma carryDay_of_le (fuel : Nat) (y m d : Int) (h : d ≤ daysInMonth y m) :
    carryDay fuel y m d = (y, m, d) := by
  cases fuel with
  | zero => rfl
  | succ fuel => rw [carryDay, if_pos h]

lemma normDay_of_in_range (y m d : Int) (h3 : 1 ≤ d) (h4 : d ≤ daysInMonth y m) :
    normDay y m d = (y, m, d) := by
  unfold normDay
  rw [if_neg (by omega), carryDay_of_le _ _ _ _ h4]

lemma mkDate_of_normalized (t : DateTime) (ht : Normalized t) :
    mkDate t.year t.month t.day t.hour t.minute = t := by
  obtain ⟨h1, h2, h3, h4, h5, h6, h7, h8⟩ := ht
  unfold mkDate
  have hmi : t.minute % 60 = t.minute := by omega
  have hmi0 : t.minute / 60 = 0 := by omega
  simp only [hmi, hmi0, add_zero]
  have hh : t.hour % 24 = t.hour := by omega
  have hh0 : t.hour / 24 = 0 := by omega
  simp only [hh, hh0, add_zero]
  rw [normMonth_id t.year t.month h1 h2]
  simp only
  rw [normDay_of_in_range t.year t.month t.day h3 h4]

/-- Go `t.Add(k * time.Minute)` (a linear shift of the instant). -/
def addMinutes (t : DateTime) (k : Int) : DateTime :=
  mkDate t.year t.month t.day t.hour (t.minute + k)

/-- Go `t.AddDate(0, months, 0)`. -/
def addDateMonths (t : DateTime) (months : Int) : DateTime :=
  mkDate t.year (t.month + months) t.day t.hour t.minute

/-- Go `t.AddDate(0, 0, days)`. -/
def addDateDays (t : DateTime) (days : Int) : DateTime :=
  mkDate t.year t.month (t.day + days) t.hour t.minute

/-- The zero `time.Time` (`IsZero`): Jan 1 of year 1, 00:00. -/
def dtZero : DateTime := ⟨1, 1, 1, 0, 0⟩

lemma toMinutes_mkDate_norm (y m d h mi : Int) (h1 : 1 ≤ m) (h2 : m ≤ 12) :
    toMinutes (mkDate y m d h mi) = (monthVal y m + (d - 1)) * 1440 + h * 60 + mi := by
  rw [toMinutes_mkDate, normMonth_id y m h1 h2]

lemma toMinutes_expand (t : DateTime) :
    toMinutes t = (monthVal t.year t.month + (t.day - 1)) * 1440
      + t.hour * 60 + t.minute := rfl

lemma toMinutes_addMinutes (t : DateTime) (ht : Normalized t) (k : Int) :
    toMinutes (addMinutes t k) = toMinutes t + k := by
  unfold addMinutes
  rw [toMinutes_mkDate_norm _ _ _ _ _ ht.1 ht.2.1, toMinutes_expand]
  ring

lemma toMinutes_addDateDays (t : DateTime) (ht : Normalized t) (n : Int) :
    toMinutes (addDateDays t n) = toMinutes t + 1440 * n := by
  unfold addDateDays
  rw [toMinutes_mkDate_norm _ _ _ _ _ ht.1 ht.2.1, toMinutes_expand]
  ring

/-- Evaluate `mkDate` when nothing over- or underflows. -/
lemma mkDate_eval (y m d h mi : Int) (h1 : 1 ≤ m) (h2 : m ≤ 12)
    (hd1 : 1 ≤ d + (h + mi / 60) / 24) (hd2 : d + (h + mi / 60) / 24 ≤ daysInMonth y m) :
    mkDate y m d h mi = ⟨y, m, d + (h + mi / 60) / 24, (h + mi / 60) % 24, mi % 60⟩ := by
  unfold mkDate
  rw [normMonth_id y m h1 h2]
  simp only
  rw [normDay_of_in_range y m _ hd1 hd2]

/-- In-range hours and minutes only decorate the `(year, month, day)` part. -/
lemma mkDate_hm (y m d h mi : Int) (hh : 0 ≤ h) (hh2 : h < 24)
    (hmi : 0 ≤ mi) (hmi2 : mi < 60) :
    mkDate y m d h mi = { mkDate y m d 0 0 with hour := h, minute := mi } := by
  unfold mkDate
  have e1 : mi % 60 = mi := by omega
  have e2 : mi / 60 = 0 := by omega
  have e3 : (h + 0) % 24 = h := by omega
  have e4 : (h + 0) / 24 = 0 := by omega
  have e5 : ((0:Int) + 0 / 60) % 24 = 0 := by decide
  have e6 : ((0:Int) + 0 / 60) / 24 = 0 := by decide
  have e7 : ((0:Int)) % 60 = 0 := by decide
  have e8 : h % 24 = h := by omega
  have e9 : h / 24 = 0 := by omega
  simp only [e1, e2, e3, e4, e5, e6, e7, e8, e9, add_zero]

/-- Push whole hours of the minute argument into the hour argument. -/
lemma mkDate_canon (y m d h mi : Int) :
    mkDate y m d h mi =
      mkDate y m (d + (h + mi / 60) / 24) ((h + mi / 60) % 24) (mi % 60) := by
  unfold mkDate
  have e1 : (mi % 60) % 60 = mi % 60 := by omega
  have e2 : (mi % 60) / 60 = 0 := by omega
  have e3 : ((h + mi / 60) % 24 + 0) % 24 = (h + mi / 60) % 24 := by omega
  have e4 : ((h + mi / 60) % 24 + 0) / 24 = 0 := by omega
  have e5 : (h + mi / 60) % 24 / 24 = 0 := by omega
  have e6 : (h + mi / 60) % 24 % 24 = (h + mi / 60) % 24 := by omega
  simp only [e1, e2, e3, e4, e5, e6, add_zero]

/-! Period calculator (`pkg/period/calculator.go`). -/

/-- `period.Calculator`. -/
structure Calculator where
  periodType : String
  creationTime : DateTime
  useCreationTime : Bool

/-- `getFixedPeriodStart`: truncate `now` to the period's granularity. -/
def getFixedPeriodStart (c : Calculator) (now : DateTime) : DateTime :=
  if c.periodType = "hour" then mkDate now.year now.month now.day now.hour 0
  else if c.periodType = "day" then mkDate now.year now.month now.day 0 0
  else if c.periodType = "month" then mkDate now.year now.month 1 0 0
  else mkDate now.year now.month now.day now.hour 0

/-- Go `int(now.Sub(creation).Hours())`: float hours truncated toward zero;
at minute granularity that is `tdiv` of the minute difference by 60. -/
def hoursSince (now creation : DateTime) : Int :=
  (toMinutes now - toMinutes creation).tdiv 60

/-- Go `int(now.Sub(creation).Hours() / 24)`. -/
def daysSince (now creation : DateTime) : Int :=
  (toMinutes now - toMinutes creation).tdiv 1440

/-- `getCreationBasedPeriodStart`.  The month case mirrors the Go code
literally, including the clamp whose condition compares
`periodStart.Month()` with itself (so the clamp branch can never be taken)
and the final `time.Date(..., creationDay, ...)` which silently normalizes a
non-existent day into the following month. -/
def getCreationBasedPeriodStart (c : Calculator) (now : DateTime) : DateTime :=
  let creation := c.creationTime
  if c.periodType = "hour" then
    addMinutes creation (hoursSince now creation * 60)
  else if c.periodType = "day" then
    addDateDays creation (daysSince now creation)
  else if c.periodType = "month" then
    let creationDay := creation.day
    let creationHour := creation.hour
    let creationMinute := creation.minute
    let monthsSinceCreation := (now.year - creation.year) * 12 + (now.month - creation.month)
    let monthsSinceCreation :=
      if now.day < creationDay ∨ (now.day = creationDay ∧ now.hour < creationHour)
      then monthsSinceCreation - 1 else monthsSinceCreation
    let periodStart := addDateMonths creation monthsSinceCreation
    let periodStart :=
      if periodStart.month ≠ (addDateMonths creation monthsSinceCreation).month then
        mkDate periodStart.year (periodStart.month + 1) 0 creationHour creationMinute
      else periodStart
    mkDate periodStart.year periodStart.month creationDay creationHour creationMinute
  else getFixedPeriodStart c now

/-- `Calculator.GetCurrentPeriodStart` (with `time.Now()` made explicit). -/
def GetCurrentPeriodStart (c : Calculator) (now : DateTime) : DateTime :=
  if ¬c.useCreationTime ∨ c.creationTime = dtZero then getFixedPeriodStart c now
  else getCreationBasedPeriodStart c now

/-- `Calculator.GetNextPeriodStart`. -/
def GetNextPeriodStart (c : Calculator) (now : DateTime) : DateTime :=
  let currentStart := GetCurrentPeriodStart c now
  if c.periodType = "hour" then addMinutes currentStart 60
  else if c.periodType = "day" then addDateDays currentStart 1
  else if c.periodType = "month" then addDateMonths currentStart 1
  else addMinutes currentStart 60


/-! Tiling of consecutive windows (C4). -/

lemma normalized_fields (t : DateTime) (ht : Normalized t) :
    1 ≤ t.month ∧ t.month ≤ 12 ∧ 1 ≤ t.day ∧ t.day ≤ daysInMonth t.year t.month
      ∧ 0 ≤ t.hour ∧ t.hour < 24 ∧ 0 ≤ t.minute ∧ t.minute < 60 := ht

/-- An hour-start instant plus an in-window offset is still decomposed inside
the same hour, so the fixed-hour window start is stable across the window. -/
lemma fixedHour_stable (c : Calculator) (hc : c.periodType = "hour")
    (hmode : ¬c.useCreationTime = true ∨ c.creationTime = dtZero)
    (t : DateTime) (ht : Normalized t) (hmin : t.minute = 0)
    (k : Int) (hk : 0 ≤ k) (hk2 : k < 60) :
    GetCurrentPeriodStart c (addMinutes t k) = t := by
  obtain ⟨b1, b2, b3, b4, b5, b6, b7, b8⟩ := normalized_fields t ht
  have hu : addMinutes t k = ⟨t.year, t.month, t.day, t.hour, k⟩ := by
    unfold addMinutes
    rw [hmin, zero_add]
    exact mkDate_of_normalized ⟨t.year, t.month, t.day, t.hour, k⟩
      ⟨b1, b2, b3, b4, b5, b6, hk, hk2⟩
  rw [GetCurrentPeriodStart, if_pos hmode, getFixedPeriodStart, if_pos hc, hu]
  have hfix := mkDate_of_normalized t ht
  rw [hmin] at hfix
  exact hfix

/-- A day-start instant plus an in-window offset stays inside the same day. -/
lemma fixedDay_stable (c : Calculator) (hc : c.periodType = "day")
    (hmode : ¬c.useCreationTime = true ∨ c.creationTime = dtZero)
    (t : DateTime) (ht : Normalized t) (hh : t.hour = 0) (hmin : t.minute = 0)
    (k : Int) (hk : 0 ≤ k) (hk2 : k < 1440) :
    GetCurrentPeriodStart c (addMinutes t k) = t := by
  obtain ⟨b1, b2, b3, b4, b5, b6, b7, b8⟩ := normalized_fields t ht
  have hfix : mkDate t.year t.month t.day 0 0 = t := by
    have hfix := mkDate_of_normalized t ht
    rwa [hmin, hh] at hfix
  have hu : addMinutes t k = ⟨t.year, t.month, t.day, k / 60, k % 60⟩ := by
    unfold addMinutes
    rw [hmin, hh, zero_add, mkDate_canon]
    have e1 : (0 + k / 60) / 24 = 0 := by omega
    have e2 : (0 + k / 60) % 24 = k / 60 := by omega
    rw [e1, e2, add_zero]
    exact mkDate_of_normalized ⟨t.year, t.month, t.day, k / 60, k % 60⟩
      ⟨b1, b2, b3, b4, show (0:Int) ≤ k / 60 from by omega,
        show k / 60 < 24 from by omega, show (0:Int) ≤ k % 60 from by omega,
        show k % 60 < 60 from by omega⟩
  have hne1 : ¬c.periodType = "hour" := by rw [hc]; decide
  rw [GetCurrentPeriodStart, if_pos hmode, getFixedPeriodStart, if_neg hne1,
    if_pos hc, hu]
  exact hfix

/-- A month-start instant plus an in-window offset stays inside the same
month. -/
lemma fixedMonth_stable (c : Calculator) (hc : c.periodType = "month")
    (hmode : ¬c.useCreationTime = true ∨ c.creationTime = dtZero)
    (t : DateTime) (ht : Normalized t) (hd : t.day = 1) (hh : t.hour = 0)
    (hmin : t.minute = 0)
    (k : Int) (hk : 0 ≤ k) (hk2 : k < 1440 * daysInMonth t.year t.month) :
    GetCurrentPeriodStart c (addMinutes t k) = t := by
  obtain ⟨b1, b2, b3, b4, b5, b6, b7, b8⟩ := normalized_fields t ht
  have hfix : mkDate t.year t.month 1 0 0 = t := by
    have hfix := mkDate_of_normalized t ht
    rwa [hmin, hh, hd] at hfix
  have hdim := dim_bounds t.year t.month
  have hu : addMinutes t k =
      ⟨t.year, t.month, 1 + (0 + k / 60) / 24, (0 + k / 60) % 24, k % 60⟩ := by
    unfold addMinutes
    rw [hmin, hh, hd, zero_add, mkDate_canon]
    exact mkDate_of_normalized ⟨t.year, t.month, 1 + (0 + k / 60) / 24,
        (0 + k / 60) % 24, k % 60⟩
      ⟨b1, b2, show (1:Int) ≤ 1 + (0 + k / 60) / 24 from by omega,
        show 1 + (0 + k / 60) / 24 ≤ daysInMonth t.year t.month from by omega,
        show (0:Int) ≤ (0 + k / 60) % 24 from by omega,
        show (0 + k / 60) % 24 < 24 from by omega,
        show (0:Int) ≤ k % 60 from by omega, show k % 60 < 60 from by omega⟩
  have hne1 : ¬c.periodType = "hour" := by rw [hc]; decide
  have hne2 : ¬c.periodType = "day" := by rw [hc]; decide
  rw [GetCurrentPeriodStart, if_pos hmode, getFixedPeriodStart, if_neg hne1,
    if_neg hne2, if_pos hc, hu]
  exact hfix

lemma mkDate_minute (y m d h mi : Int) : (mkDate y m d h mi).minute = mi % 60 := rfl

lemma mkDate_hour (y m d h mi : Int) :
    (mkDate y m d h mi).hour = (h + mi / 60) % 24 := rfl

/-- The first of a month, as `mkDate` produces it. -/
lemma mkDate_monthStart (y m : Int) :
    mkDate y m 1 0 0 = ⟨(normMonth y m).1, (normMonth y m).2, 1, 0, 0⟩ := by
  unfold mkDate
  norm_num
  have hr := normMonth_range y m
  have hdim := dim_bounds (normMonth y m).1 (normMonth y m).2
  rw [normDay_of_in_range _ _ _ (le_refl 1) (by omega)]
  exact ⟨rfl, rfl, rfl⟩

lemma normMonth_succ_eq_next (y m : Int) (h1 : 1 ≤ m) (h2 : m ≤ 12) :
    normMonth y (m + 1) = nextMonth y m := by
  unfold normMonth nextMonth
  split_ifs with h
  · subst h
    exact Prod.ext (by norm_num) (by norm_num)
  · exact Prod.ext (by simp; omega) (by simp; omega)

/-- The anchored-mode guard of `GetCurrentPeriodStart`. -/
lemma cur_anchored (c : Calculator) (hmode : c.useCreationTime = true)
    (hnz : ¬ c.creationTime = dtZero) (now : DateTime) :
    GetCurrentPeriodStart c now = getCreationBasedPeriodStart c now := by
  rw [GetCurrentPeriodStart, if_neg]
  rintro (h1 | h2)
  · rw [hmode] at h1
    exact h1 rfl
  · exact hnz h2

lemma cur_anchored_hour (c : Calculator) (hc : c.periodType = "hour")
    (hmode : c.useCreationTime = true) (hnz : ¬ c.creationTime = dtZero)
    (now : DateTime) :
    GetCurrentPeriodStart c now =
      addMinutes c.creationTime (hoursSince now c.creationTime * 60) := by
  rw [cur_anchored c hmode hnz, getCreationBasedPeriodStart, if_pos hc]

lemma cur_anchored_day (c : Calculator) (hc : c.periodType = "day")
    (hmode : c.useCreationTime = true) (hnz : ¬ c.creationTime = dtZero)
    (now : DateTime) :
    GetCurrentPeriodStart c now =
      addDateDays c.creationTime (daysSince now c.creationTime) := by
  have hne1 : ¬c.periodType = "hour" := by rw [hc]; decide
  rw [cur_anchored c hmode hnz, getCreationBasedPeriodStart, if_neg hne1, if_pos hc]

lemma next_hour (c : Calculator) (hc : c.periodType = "hour") (now : DateTime) :
    GetNextPeriodStart c now = addMinutes (GetCurrentPeriodStart c now) 60 := by
  rw [GetNextPeriodStart, if_pos hc]

lemma next_day (c : Calculator) (hc : c.periodType = "day") (now : DateTime) :
    GetNextPeriodStart c now = addDateDays (GetCurrentPeriodStart c now) 1 := by
  have hne1 : ¬c.periodType = "hour" := by rw [hc]; decide
  rw [GetNextPeriodStart, if_neg hne1, if_pos hc]

lemma next_month (c : Calculator) (hc : c.periodType = "month") (now : DateTime) :
    GetNextPeriodStart c now = addDateMonths (GetCurrentPeriodStart c now) 1 := by
  have hne1 : ¬c.periodType = "hour" := by rw [hc]; decide
  have hne2 : ¬c.periodType = "day" := by rw [hc]; decide
  rw [GetNextPeriodStart, if_neg hne1, if_neg hne2, if_pos hc]

lemma C4_part_fixed_hour (ct now : DateTime) (hn : Normalized now) (k k' : Int)
    (hk : 0 ≤ k) (hk2 : k < 60) (hk' : 0 ≤ k') (hk2' : k' < 60) :
    GetCurrentPeriodStart ⟨"hour", ct, false⟩
        (addMinutes (GetCurrentPeriodStart ⟨"hour", ct, false⟩ now) k) =
      GetCurrentPeriodStart ⟨"hour", ct, false⟩ now
    ∧ GetNextPeriodStart ⟨"hour", ct, false⟩
        (addMinutes (GetCurrentPeriodStart ⟨"hour", ct, false⟩ now) k) =
      addMinutes (GetCurrentPeriodStart ⟨"hour", ct, false⟩ now) 60
    ∧ GetCurrentPeriodStart ⟨"hour", ct, false⟩
        (addMinutes (addMinutes (GetCurrentPeriodStart ⟨"hour", ct, false⟩ now) 60) k') =
      addMinutes (GetCurrentPeriodStart ⟨"hour", ct, false⟩ now) 60
    ∧ toMinutes (addMinutes (GetCurrentPeriodStart ⟨"hour", ct, false⟩ now) 60) =
      toMinutes (GetCurrentPeriodStart ⟨"hour", ct, false⟩ now) + 60 := by
  have hmode : ¬(⟨"hour", ct, false⟩ : Calculator).useCreationTime = true ∨
      (⟨"hour", ct, false⟩ : Calculator).creationTime = dtZero := Or.inl (by simp)
  have hshape : GetCurrentPeriodStart ⟨"hour", ct, false⟩ now =
      mkDate now.year now.month now.day now.hour 0 := by
    rw [GetCurrentPeriodStart, if_pos hmode, getFixedPeriodStart, if_pos rfl]
  have hs_norm : Normalized (GetCurrentPeriodStart ⟨"hour", ct, false⟩ now) := by
    rw [hshape]; exact mkDate_normalized _ _ _ _ _
  have hs_min : (GetCurrentPeriodStart ⟨"hour", ct, false⟩ now).minute = 0 := by
    rw [hshape, mkDate_minute]; decide
  have h1 := fixedHour_stable ⟨"hour", ct, false⟩ rfl hmode _ hs_norm hs_min k hk hk2
  have he_norm : Normalized (addMinutes (GetCurrentPeriodStart ⟨"hour", ct, false⟩ now) 60) := by
    unfold addMinutes; exact mkDate_normalized _ _ _ _ _
  have he_min : (addMinutes (GetCurrentPeriodStart ⟨"hour", ct, false⟩ now) 60).minute = 0 := by
    unfold addMinutes
    rw [mkDate_minute, hs_min]
    decide
  have h3 := fixedHour_stable ⟨"hour", ct, false⟩ rfl hmode _ he_norm he_min k' hk' hk2'
  exact ⟨h1, by rw [next_hour _ rfl, h1], h3,
    toMinutes_addMinutes _ hs_norm 60⟩

lemma C4_part_fixed_day (ct now : DateTime) (hn : Normalized now) (k k' : Int)
    (hk : 0 ≤ k) (hk2 : k < 1440) (hk' : 0 ≤ k') (hk2' : k' < 1440) :
    GetCurrentPeriodStart ⟨"day", ct, false⟩
        (addMinutes (GetCurrentPeriodStart ⟨"day", ct, false⟩ now) k) =
      GetCurrentPeriodStart ⟨"day", ct, false⟩ now
    ∧ GetNextPeriodStart ⟨"day", ct, false⟩
        (addMinutes (GetCurrentPeriodStart ⟨"day", ct, false⟩ now) k) =
      addDateDays (GetCurrentPeriodStart ⟨"day", ct, false⟩ now) 1
    ∧ GetCurrentPeriodStart ⟨"day", ct, false⟩
        (addMinutes (addDateDays (GetCurrentPeriodStart ⟨"day", ct, false⟩ now) 1) k') =
      addDateDays (GetCurrentPeriodStart ⟨"day", ct, false⟩ now) 1
    ∧ toMinutes (addDateDays (GetCurrentPeriodStart ⟨"day", ct, false⟩ now) 1) =
      toMinutes (GetCurrentPeriodStart ⟨"day", ct, false⟩ now) + 1440 := by
  have hmode : ¬(⟨"day", ct, false⟩ : Calculator).useCreationTime = true ∨
      (⟨"day", ct, false⟩ : Calculator).creationTime = dtZero := Or.inl (by simp)
  have hshape : GetCurrentPeriodStart ⟨"day", ct, false⟩ now =
      mkDate now.year now.month now.day 0 0 := by
    have hne : ¬(Calculator.mk "day" ct false).periodType = "hour" := by
      show ¬("day" : String) = "hour"
      decide
    rw [GetCurrentPeriodStart, if_pos hmode, getFixedPeriodStart, if_neg hne, if_pos rfl]
  have hs_norm : Normalized (GetCurrentPeriodStart ⟨"day", ct, false⟩ now) := by
    rw [hshape]; exact mkDate_normalized _ _ _ _ _
  have hs_min : (GetCurrentPeriodStart ⟨"day", ct, false⟩ now).minute = 0 := by
    rw [hshape, mkDate_minute]; decide
  have hs_hour : (GetCurrentPeriodStart ⟨"day", ct, false⟩ now).hour = 0 := by
    rw [hshape, mkDate_hour]; decide
  have h1 := fixedDay_stable ⟨"day", ct, false⟩ rfl hmode _ hs_norm hs_hour hs_min k hk hk2
  have he_norm : Normalized
      (addDateDays (GetCurrentPeriodStart ⟨"day", ct, false⟩ now) 1) := by
    unfold addDateDays; exact mkDate_normalized _ _ _ _ _
  have he_min : (addDateDays (GetCurrentPeriodStart ⟨"day", ct, false⟩ now) 1).minute = 0 := by
    unfold addDateDays
    rw [mkDate_minute, hs_min]
    decide
  have he_hour : (addDateDays (GetCurrentPeriodStart ⟨"day", ct, false⟩ now) 1).hour = 0 := by
    unfold addDateDays
    rw [mkDate_hour, hs_min, hs_hour]
    decide
  have h3 := fixedDay_stable ⟨"day", ct, false⟩ rfl hmode _ he_norm he_hour he_min k' hk' hk2'
  refine ⟨h1, by rw [next_day _ rfl, h1], h3, ?_⟩
  rw [toMinutes_addDateDays _ hs_norm 1]
  ring

lemma C4_part_fixed_month (ct now : DateTime) (hn : Normalized now) (k k' : Int)
    (hk : 0 ≤ k)
    (hk2 : k < 1440 * daysInMonth (GetCurrentPeriodStart ⟨"month", ct, false⟩ now).year
      (GetCurrentPeriodStart ⟨"month", ct, false⟩ now).month)
    (hk' : 0 ≤ k')
    (hk2' : k' < 1440 * daysInMonth
      (addDateMonths (GetCurrentPeriodStart ⟨"month", ct, false⟩ now) 1).year
      (addDateMonths (GetCurrentPeriodStart ⟨"month", ct, false⟩ now) 1).month) :
    GetCurrentPeriodStart ⟨"month", ct, false⟩
        (addMinutes (GetCurrentPeriodStart ⟨"month", ct, false⟩ now) k) =
      GetCurrentPeriodStart ⟨"month", ct, false⟩ now
    ∧ GetNextPeriodStart ⟨"month", ct, false⟩
        (addMinutes (GetCurrentPeriodStart ⟨"month", ct, false⟩ now) k) =
      addDateMonths (GetCurrentPeriodStart ⟨"month", ct, false⟩ now) 1
    ∧ GetCurrentPeriodStart ⟨"month", ct, false⟩
        (addMinutes (addDateMonths (GetCurrentPeriodStart ⟨"month", ct, false⟩ now) 1) k') =
      addDateMonths (GetCurrentPeriodStart ⟨"month", ct, false⟩ now) 1
    ∧ toMinutes (addDateMonths (GetCurrentPeriodStart ⟨"month", ct, false⟩ now) 1) =
      toMinutes (GetCurrentPeriodStart ⟨"month", ct, false⟩ now)
        + 1440 * daysInMonth (GetCurrentPeriodStart ⟨"month", ct, false⟩ now).year
            (GetCurrentPeriodStart ⟨"month", ct, false⟩ now).month := by
  have hmode : ¬(⟨"month", ct, false⟩ : Calculator).useCreationTime = true ∨
      (⟨"month", ct, false⟩ : Calculator).creationTime = dtZero := Or.inl (by simp)
  have hne1 : ¬(Calculator.mk "month" ct false).periodType = "hour" := by
    show ¬("month" : String) = "hour"
    decide
  have hne2 : ¬(Calculator.mk "month" ct false).periodType = "day" := by
    show ¬("month" : String) = "day"
    decide
  have hshape : GetCurrentPeriodStart ⟨"month", ct, false⟩ now =
      ⟨(normMonth now.year now.month).1, (normMonth now.year now.month).2, 1, 0, 0⟩ := by
    rw [GetCurrentPeriodStart, if_pos hmode, getFixedPeriodStart, if_neg hne1,
      if_neg hne2, if_pos rfl, mkDate_monthStart]
  have hrange := normMonth_range now.year now.month
  have hdim := dim_bounds (normMonth now.year now.month).1 (normMonth now.year now.month).2
  have hs_norm : Normalized (GetCurrentPeriodStart ⟨"month", ct, false⟩ now) := by
    rw [hshape]
    exact ⟨hrange.1, hrange.2, le_refl 1,
      show (1:Int) ≤ daysInMonth (normMonth now.year now.month).1
        (normMonth now.year now.month).2 from by omega,
      show (0:Int) ≤ 0 from le_refl 0, show (0:Int) < 24 from by decide,
      show (0:Int) ≤ 0 from le_refl 0, show (0:Int) < 60 from by decide⟩
  have hs_day : (GetCurrentPeriodStart ⟨"month", ct, false⟩ now).day = 1 := by
    rw [hshape]
  have hs_hour : (GetCurrentPeriodStart ⟨"month", ct, false⟩ now).hour = 0 := by
    rw [hshape]
  have hs_min : (GetCurrentPeriodStart ⟨"month", ct, false⟩ now).minute = 0 := by
    rw [hshape]
  have h1 := fixedMonth_stable ⟨"month", ct, false⟩ rfl hmode _ hs_norm hs_day hs_hour
    hs_min k hk hk2
  -- the next window start is the first of the following month
  have heshape : addDateMonths (GetCurrentPeriodStart ⟨"month", ct, false⟩ now) 1 =
      ⟨(nextMonth (GetCurrentPeriodStart ⟨"month", ct, false⟩ now).year
          (GetCurrentPeriodStart ⟨"month", ct, false⟩ now).month).1,
       (nextMonth (GetCurrentPeriodStart ⟨"month", ct, false⟩ now).year
          (GetCurrentPeriodStart ⟨"month", ct, false⟩ now).month).2, 1, 0, 0⟩ := by
    unfold addDateMonths
    rw [hs_day, hs_hour, hs_min, mkDate_monthStart,
      normMonth_succ_eq_next _ _ hs_norm.1 hs_norm.2.1]
  have hnrange := nextMonth_range (GetCurrentPeriodStart ⟨"month", ct, false⟩ now).year
    (GetCurrentPeriodStart ⟨"month", ct, false⟩ now).month hs_norm.1 hs_norm.2.1
  have hndim := dim_bounds
    (nextMonth (GetCurrentPeriodStart ⟨"month", ct, false⟩ now).year
      (GetCurrentPeriodStart ⟨"month", ct, false⟩ now).month).1
    (nextMonth (GetCurrentPeriodStart ⟨"month", ct, false⟩ now).year
      (GetCurrentPeriodStart ⟨"month", ct, false⟩ now).month).2
  have he_norm : Normalized
      (addDateMonths (GetCurrentPeriodStart ⟨"month", ct, false⟩ now) 1) := by
    rw [heshape]
    refine ⟨hnrange.1, hnrange.2, le_refl 1, ?_,
      show (0:Int) ≤ 0 from le_refl 0, show (0:Int) < 24 from by decide,
      show (0:Int) ≤ 0 from le_refl 0, show (0:Int) < 60 from by decide⟩
    show (1:Int) ≤ daysInMonth
      (nextMonth (GetCurrentPeriodStart ⟨"month", ct, false⟩ now).year
        (GetCurrentPeriodStart ⟨"month", ct, false⟩ now).month).1
      (nextMonth (GetCurrentPeriodStart ⟨"month", ct, false⟩ now).year
        (GetCurrentPeriodStart ⟨"month", ct, false⟩ now).month).2
    omega
  have he_day : (addDateMonths (GetCurrentPeriodStart ⟨"month", ct, false⟩ now) 1).day = 1 := by
    rw [heshape]
  have he_hour : (addDateMonths (GetCurrentPeriodStart ⟨"month", ct, false⟩ now) 1).hour = 0 := by
    rw [heshape]
  have he_min : (addDateMonths (GetCurrentPeriodStart ⟨"month", ct, false⟩ now) 1).minute = 0 := by
    rw [heshape]
  have h3 := fixedMonth_stable ⟨"month", ct, false⟩ rfl hmode _ he_norm he_day he_hour
    he_min k' hk' hk2'
  refine ⟨h1, by rw [next_month _ rfl, h1], h3, ?_⟩
  rw [heshape, hshape]
  rw [toMinutes_expand, toMinutes_expand]
  simp only
  have hmv := monthVal_next (normMonth now.year now.month).1
    (normMonth now.year now.month).2 hrange.1 hrange.2
  omega

lemma tdiv_sixty (q k : Int) (hq : 0 ≤ q) (hk : 0 ≤ k) (hk2 : k < 60) :
    (q * 60 + k).tdiv 60 = q := by
  rw [Int.tdiv_eq_ediv (by omega) (by omega)]
  omega

lemma tdiv_day (q k : Int) (hq : 0 ≤ q) (hk : 0 ≤ k) (hk2 : k < 1440) :
    (q * 1440 + k).tdiv 1440 = q := by
  rw [Int.tdiv_eq_ediv (by omega) (by omega)]
  omega

lemma C4_part_anchored_hour (creation now : DateTime) (hcn : Normalized creation)
    (hnz : ¬ creation = dtZero) (hord : toMinutes creation ≤ toMinutes now)
    (k k' : Int) (hk : 0 ≤ k) (hk2 : k < 60) (hk' : 0 ≤ k') (hk2' : k' < 60) :
    GetCurrentPeriodStart ⟨"hour", creation, true⟩
        (addMinutes (GetCurrentPeriodStart ⟨"hour", creation, true⟩ now) k) =
      GetCurrentPeriodStart ⟨"hour", creation, true⟩ now
    ∧ GetNextPeriodStart ⟨"hour", creation, true⟩
        (addMinutes (GetCurrentPeriodStart ⟨"hour", creation, true⟩ now) k) =
      addMinutes (GetCurrentPeriodStart ⟨"hour", creation, true⟩ now) 60
    ∧ toMinutes (GetCurrentPeriodStart ⟨"hour", creation, true⟩
        (addMinutes (addMinutes (GetCurrentPeriodStart ⟨"hour", creation, true⟩ now) 60) k')) =
      toMinutes (GetCurrentPeriodStart ⟨"hour", creation, true⟩ now) + 60
    ∧ toMinutes (addMinutes (GetCurrentPeriodStart ⟨"hour", creation, true⟩ now) 60) =
      toMinutes (GetCurrentPeriodStart ⟨"hour", creation, true⟩ now) + 60 := by
  have hcur : ∀ t, GetCurrentPeriodStart ⟨"hour", creation, true⟩ t =
      addMinutes creation (hoursSince t creation * 60) := fun t =>
    cur_anchored_hour ⟨"hour", creation, true⟩ rfl rfl hnz t
  have hq0 : 0 ≤ hoursSince now creation := by
    rw [hoursSince, Int.tdiv_eq_ediv (by omega) (by omega)]
    omega
  have htm_s : toMinutes (GetCurrentPeriodStart ⟨"hour", creation, true⟩ now) =
      toMinutes creation + hoursSince now creation * 60 := by
    rw [hcur now, toMinutes_addMinutes creation hcn]
  have hs_norm : Normalized (GetCurrentPeriodStart ⟨"hour", creation, true⟩ now) := by
    rw [hcur now]
    unfold addMinutes
    exact mkDate_normalized _ _ _ _ _
  have h1 : GetCurrentPeriodStart ⟨"hour", creation, true⟩
      (addMinutes (GetCurrentPeriodStart ⟨"hour", creation, true⟩ now) k) =
      GetCurrentPeriodStart ⟨"hour", creation, true⟩ now := by
    rw [hcur]
    have : hoursSince
        (addMinutes (GetCurrentPeriodStart ⟨"hour", creation, true⟩ now) k) creation =
        hoursSince now creation := by
      rw [hoursSince, toMinutes_addMinutes _ hs_norm, htm_s,
        show toMinutes creation + hoursSince now creation * 60 + k - toMinutes creation =
          hoursSince now creation * 60 + k from by ring]
      exact tdiv_sixty _ _ hq0 hk hk2
    rw [this]
    exact (hcur now).symm
  have he_norm : Normalized
      (addMinutes (GetCurrentPeriodStart ⟨"hour", creation, true⟩ now) 60) := by
    unfold addMinutes
    exact mkDate_normalized _ _ _ _ _
  have h3 : toMinutes (GetCurrentPeriodStart ⟨"hour", creation, true⟩
      (addMinutes (addMinutes (GetCurrentPeriodStart ⟨"hour", creation, true⟩ now) 60) k')) =
      toMinutes (GetCurrentPeriodStart ⟨"hour", creation, true⟩ now) + 60 := by
    rw [hcur]
    have hu : hoursSince
        (addMinutes (addMinutes (GetCurrentPeriodStart ⟨"hour", creation, true⟩ now) 60) k')
        creation = hoursSince now creation + 1 := by
      rw [hoursSince, toMinutes_addMinutes _ he_norm, toMinutes_addMinutes _ hs_norm,
        htm_s,
        show toMinutes creation + hoursSince now creation * 60 + 60 + k' - toMinutes creation =
          (hoursSince now creation + 1) * 60 + k' from by ring]
      exact tdiv_sixty _ _ (by omega) hk' hk2'
    rw [hu, toMinutes_addMinutes creation hcn, htm_s]
    ring
  exact ⟨h1, by rw [next_hour _ rfl, h1], h3, toMinutes_addMinutes _ hs_norm 60⟩

lemma C4_part_anchored_day (creation now : DateTime) (hcn : Normalized creation)
    (hnz : ¬ creation = dtZero) (hord : toMinutes creation ≤ toMinutes now)
    (k k' : Int) (hk : 0 ≤ k) (hk2 : k < 1440) (hk' : 0 ≤ k') (hk2' : k' < 1440) :
    GetCurrentPeriodStart ⟨"day", creation, true⟩
        (addMinutes (GetCurrentPeriodStart ⟨"day", creation, true⟩ now) k) =
      GetCurrentPeriodStart ⟨"day", creation, true⟩ now
    ∧ GetNextPeriodStart ⟨"day", creation, true⟩
        (addMinutes (GetCurrentPeriodStart ⟨"day", creation, true⟩ now) k) =
      addDateDays (GetCurrentPeriodStart ⟨"day", creation, true⟩ now) 1
    ∧ toMinutes (GetCurrentPeriodStart ⟨"day", creation, true⟩
        (addMinutes (addDateDays (GetCurrentPeriodStart ⟨"day", creation, true⟩ now) 1) k')) =
      toMinutes (GetCurrentPeriodStart ⟨"day", creation, true⟩ now) + 1440
    ∧ toMinutes (addDateDays (GetCurrentPeriodStart ⟨"day", creation, true⟩ now) 1) =
      toMinutes (GetCurrentPeriodStart ⟨"day", creation, true⟩ now) + 1440 := by
  have hcur : ∀ t, GetCurrentPeriodStart ⟨"day", creation, true⟩ t =
      addDateDays creation (daysSince t creation) := fun t =>
    cur_anchored_day ⟨"day", creation, true⟩ rfl rfl hnz t
  have hq0 : 0 ≤ daysSince now creation := by
    rw [daysSince, Int.tdiv_eq_ediv (by omega) (by omega)]
    omega
  have htm_s : toMinutes (GetCurrentPeriodStart ⟨"day", creation, true⟩ now) =
      toMinutes creation + 1440 * daysSince now creation := by
    rw [hcur now, toMinutes_addDateDays creation hcn]
  have hs_norm : Normalized (GetCurrentPeriodStart ⟨"day", creation, true⟩ now) := by
    rw [hcur now]
    unfold addDateDays
    exact mkDate_normalized _ _ _ _ _
  have h1 : GetCurrentPeriodStart ⟨"day", creation, true⟩
      (addMinutes (GetCurrentPeriodStart ⟨"day", creation, true⟩ now) k) =
      GetCurrentPeriodStart ⟨"day", creation, true⟩ now := by
    rw [hcur]
    have : daysSince
        (addMinutes (GetCurrentPeriodStart ⟨"day", creation, true⟩ now) k) creation =
        daysSince now creation := by
      rw [daysSince, toMinutes_addMinutes _ hs_norm, htm_s,
        show toMinutes creation + 1440 * daysSince now creation + k - toMinutes creation =
          daysSince now creation * 1440 + k from by ring]
      exact tdiv_day _ _ hq0 hk hk2
    rw [this]
    exact (hcur now).symm
  have he_norm : Normalized
      (addDateDays (GetCurrentPeriodStart ⟨"day", creation, true⟩ now) 1) := by
    unfold addDateDays
    exact mkDate_normalized _ _ _ _ _
  have h3 : toMinutes (GetCurrentPeriodStart ⟨"day", creation, true⟩
      (addMinutes (addDateDays (GetCurrentPeriodStart ⟨"day", creation, true⟩ now) 1) k')) =
      toMinutes (GetCurrentPeriodStart ⟨"day", creation, true⟩ now) + 1440 := by
    rw [hcur]
    have hu : daysSince
        (addMinutes (addDateDays (GetCurrentPeriodStart ⟨"day", creation, true⟩ now) 1) k')
        creation = daysSince now creation + 1 := by
      rw [daysSince, toMinutes_addMinutes _ he_norm, toMinutes_addDateDays _ hs_norm,
        htm_s,
        show toMinutes creation + 1440 * daysSince now creation + 1440 * 1 + k'
            - toMinutes creation =
          (daysSince now creation + 1) * 1440 + k' from by ring]
      exact tdiv_day _ _ (by omega) hk' hk2'
    rw [hu, toMinutes_addDateDays creation hcn, htm_s]
    ring
  exact ⟨h1, by rw [next_day _ rfl, h1], h3, toMinutes_addDateDays _ hs_norm 1⟩

/-- `FileStorage.calculatePeriodStart` month case (`pkg/storage/storage.go`):
same months-since computation, no clamp attempt at all, minute fixed to 0;
the final `time.Date(..., creationDay, ...)` again normalizes a non-existent
day into the following month. -/
def calculatePeriodStartFS (period : String) (creationTime now : DateTime) : DateTime :=
  if period = "hour" then addMinutes creationTime (hoursSince now creationTime * 60)
  else if period = "day" then addDateDays creationTime (daysSince now creationTime)
  else if period = "month" then
    let creationDay := creationTime.day
    let creationHour := creationTime.hour
    let monthsSinceCreation :=
      (now.year - creationTime.year) * 12 + (now.month - creationTime.month)
    let monthsSinceCreation :=
      if now.day < creationDay ∨ (now.day = creationDay ∧ now.hour < creationHour)
      then monthsSinceCreation - 1 else monthsSinceCreation
    let periodStart := addDateMonths creationTime monthsSinceCreation
    mkDate periodStart.year periodStart.month creationDay creationHour 0
  else mkDate now.year now.month now.day now.hour 0

/-- C3: for a creation-anchored month period with anchor day 31 and target
month February 2023 (28 days), both period-start computations return
March 31 — the anchor day normalized forward out of February — instead of the
clamped Feb 28 the spec requires.  The clamp branch in
`getCreationBasedPeriodStart` compares `periodStart.Month()` against the very
same expression, so it can never fire (the intermediate `AddDate(0, 1, 0)`
already normalized Jan 31 + 1 month to Mar 3). -/
theorem C3_month_anchor_overflow_normalizes_forward :
    GetCurrentPeriodStart ⟨"month", ⟨2023, 1, 31, 0, 0⟩, true⟩ ⟨2023, 3, 10, 0, 0⟩ =
      ⟨2023, 3, 31, 0, 0⟩
    ∧ calculatePeriodStartFS "month" ⟨2023, 1, 31, 0, 0⟩ ⟨2023, 3, 10, 0, 0⟩ =
      ⟨2023, 3, 31, 0, 0⟩
    ∧ (⟨2023, 3, 31, 0, 0⟩ : DateTime) ≠ ⟨2023, 2, 28, 0, 0⟩
    ∧ addDateMonths ⟨2023, 1, 31, 0, 0⟩ 1 = ⟨2023, 3, 3, 0, 0⟩ :=
  ⟨by decide, by decide, by decide, by decide⟩

/-- C4 counterexample: for the creation-anchored month window anchored at
Jan 31 2023, the window end computed inside window N (at Feb 10) is Mar 3,
but the current-window start computed at Mar 10 — an instant within a month
after that end — is Mar 31: consecutive windows neither abut nor cover
Mar 3–Mar 31, so the tiling invariant fails for month-kind anchored
windows. -/
theorem C4_counterexample_anchored_month_gap :
    GetCurrentPeriodStart ⟨"month", ⟨2023, 1, 31, 0, 0⟩, true⟩ ⟨2023, 2, 10, 0, 0⟩ =
      ⟨2023, 1, 31, 0, 0⟩
    ∧ GetNextPeriodStart ⟨"month", ⟨2023, 1, 31, 0, 0⟩, true⟩ ⟨2023, 2, 10, 0, 0⟩ =
      ⟨2023, 3, 3, 0, 0⟩
    ∧ GetCurrentPeriodStart ⟨"month", ⟨2023, 1, 31, 0, 0⟩, true⟩ ⟨2023, 3, 10, 0, 0⟩ =
      ⟨2023, 3, 31, 0, 0⟩
    ∧ toMinutes (⟨2023, 3, 3, 0, 0⟩ : DateTime) ≤ toMinutes (⟨2023, 3, 10, 0, 0⟩ : DateTime)
    ∧ toMinutes (⟨2023, 3, 10, 0, 0⟩ : DateTime) <
        toMinutes (⟨2023, 3, 3, 0, 0⟩ : DateTime) + 1440 * 31
    ∧ (⟨2023, 3, 31, 0, 0⟩ : DateTime) ≠ ⟨2023, 3, 3, 0, 0⟩ :=
  ⟨by decide, by decide, by decide, by decide, by decide, by decide⟩

/-- C4 amended: consecutive accounting windows tile exactly — the next-window
start computed at any instant of window N equals the current-window start
computed at any instant of window N+1, with windows abutting as instants —
for fixed-mode hour, day and month windows and for creation-anchored hour and
day windows (at instants at or after the anchor); the creation-anchored month
case violates the invariant (see the counterexample). -/
theorem C4_amended_windows_tile :
    (∀ (ct now : DateTime) (k k' : Int), Normalized now →
      0 ≤ k → k < 60 → 0 ≤ k' → k' < 60 →
      GetCurrentPeriodStart ⟨"hour", ct, false⟩
          (addMinutes (GetCurrentPeriodStart ⟨"hour", ct, false⟩ now) k) =
        GetCurrentPeriodStart ⟨"hour", ct, false⟩ now
      ∧ GetNextPeriodStart ⟨"hour", ct, false⟩
          (addMinutes (GetCurrentPeriodStart ⟨"hour", ct, false⟩ now) k) =
        addMinutes (GetCurrentPeriodStart ⟨"hour", ct, false⟩ now) 60
      ∧ GetCurrentPeriodStart ⟨"hour", ct, false⟩
          (addMinutes (addMinutes (GetCurrentPeriodStart ⟨"hour", ct, false⟩ now) 60) k') =
        addMinutes (GetCurrentPeriodStart ⟨"hour", ct, false⟩ now) 60
      ∧ toMinutes (addMinutes (GetCurrentPeriodStart ⟨"hour", ct, false⟩ now) 60) =
        toMinutes (GetCurrentPeriodStart ⟨"hour", ct, false⟩ now) + 60)
    ∧ (∀ (ct now : DateTime) (k k' : Int), Normalized now →
      0 ≤ k → k < 1440 → 0 ≤ k' → k' < 1440 →
      GetCurrentPeriodStart ⟨"day", ct, false⟩
          (addMinutes (GetCurrentPeriodStart ⟨"day", ct, false⟩ now) k) =
        GetCurrentPeriodStart ⟨"day", ct, false⟩ now
      ∧ GetNextPeriodStart ⟨"day", ct, false⟩
          (addMinutes (GetCurrentPeriodStart ⟨"day", ct, false⟩ now) k) =
        addDateDays (GetCurrentPeriodStart ⟨"day", ct, false⟩ now) 1
      ∧ GetCurrentPeriodStart ⟨"day", ct, false⟩
          (addMinutes (addDateDays (GetCurrentPeriodStart ⟨"day", ct, false⟩ now) 1) k') =
        addDateDays (GetCurrentPeriodStart ⟨"day", ct, false⟩ now) 1
      ∧ toMinutes (addDateDays (GetCurrentPeriodStart ⟨"day", ct, false⟩ now) 1) =
        toMinutes (GetCurrentPeriodStart ⟨"day", ct, false⟩ now) + 1440)
    ∧ (∀ (ct now : DateTime) (k k' : Int), Normalized now →
      0 ≤ k →
      k < 1440 * daysInMonth (GetCurrentPeriodStart ⟨"month", ct, false⟩ now).year
        (GetCurrentPeriodStart ⟨"month", ct, false⟩ now).month →
      0 ≤ k' →
      k' < 1440 * daysInMonth
        (addDateMonths (GetCurrentPeriodStart ⟨"month", ct, false⟩ now) 1).year
        (addDateMonths (GetCurrentPeriodStart ⟨"month", ct, false⟩ now) 1).month →
      GetCurrentPeriodStart ⟨"month", ct, false⟩
          (addMinutes (GetCurrentPeriodStart ⟨"month", ct, false⟩ now) k) =
        GetCurrentPeriodStart ⟨"month", ct, false⟩ now
      ∧ GetNextPeriodStart ⟨"month", ct, false⟩
          (addMinutes (GetCurrentPeriodStart ⟨"month", ct, false⟩ now) k) =
        addDateMonths (GetCurrentPeriodStart ⟨"month", ct, false⟩ now) 1
      ∧ GetCurrentPeriodStart ⟨"month", ct, false⟩
          (addMinutes (addDateMonths (GetCurrentPeriodStart ⟨"month", ct, false⟩ now) 1) k') =
        addDateMonths (GetCurrentPeriodStart ⟨"month", ct, false⟩ now) 1
      ∧ toMinutes (addDateMonths (GetCurrentPeriodStart ⟨"month", ct, false⟩ now) 1) =
        toMinutes (GetCurrentPeriodStart ⟨"month", ct, false⟩ now)
          + 1440 * daysInMonth (GetCurrentPeriodStart ⟨"month", ct, false⟩ now).year
              (GetCurrentPeriodStart ⟨"month", ct, false⟩ now).month)
    ∧ (∀ (creation now : DateTime) (k k' : Int), Normalized creation →
      ¬ creation = dtZero → toMinutes creation ≤ toMinutes now →
      0 ≤ k → k < 60 → 0 ≤ k' → k' < 60 →
      GetCurrentPeriodStart ⟨"hour", creation, true⟩
          (addMinutes (GetCurrentPeriodStart ⟨"hour", creation, true⟩ now) k) =
        GetCurrentPeriodStart ⟨"hour", creation, true⟩ now
      ∧ GetNextPeriodStart ⟨"hour", creation, true⟩
          (addMinutes (GetCurrentPeriodStart ⟨"hour", creation, true⟩ now) k) =
        addMinutes (GetCurrentPeriodStart ⟨"hour", creation, true⟩ now) 60
      ∧ toMinutes (GetCurrentPeriodStart ⟨"hour", creation, true⟩
          (addMinutes (addMinutes (GetCurrentPeriodStart ⟨"hour", creation, true⟩ now) 60) k')) =
        toMinutes (GetCurrentPeriodStart ⟨"hour", creation, true⟩ now) + 60
      ∧ toMinutes (addMinutes (GetCurrentPeriodStart ⟨"hour", creation, true⟩ now) 60) =
        toMinutes (GetCurrentPeriodStart ⟨"hour", creation, true⟩ now) + 60)
    ∧ (∀ (creation now : DateTime) (k k' : Int), Normalized creation →
      ¬ creation = dtZero → toMinutes creation ≤ toMinutes now →
      0 ≤ k → k < 1440 → 0 ≤ k' → k' < 1440 →
      GetCurrentPeriodStart ⟨"day", creation, true⟩
          (addMinutes (GetCurrentPeriodStart ⟨"day", creation, true⟩ now) k) =
        GetCurrentPeriodStart ⟨"day", creation, true⟩ now
      ∧ GetNextPeriodStart ⟨"day", creation, true⟩
          (addMinutes (GetCurrentPeriodStart ⟨"day", creation, true⟩ now) k) =
        addDateDays (GetCurrentPeriodStart ⟨"day", creation, true⟩ now) 1
      ∧ toMinutes (GetCurrentPeriodStart ⟨"day", creation, true⟩
          (addMinutes (addDateDays (GetCurrentPeriodStart ⟨"day", creation, true⟩ now) 1) k')) =
        toMinutes (GetCurrentPeriodStart ⟨"day", creation, true⟩ now) + 1440
      ∧ toMinutes (addDateDays (GetCurrentPeriodStart ⟨"day", creation, true⟩ now) 1) =
        toMinutes (GetCurrentPeriodStart ⟨"day", creation, true⟩ now) + 1440) :=
  ⟨fun ct now k k' hn hk hk2 hk' hk2' =>
    C4_part_fixed_hour ct now hn k k' hk hk2 hk' hk2',
   fun ct now k k' hn hk hk2 hk' hk2' =>
    C4_part_fixed_day ct now hn k k' hk hk2 hk' hk2',
   fun ct now k k' hn hk hk2 hk' hk2' =>
    C4_part_fixed_month ct now hn k k' hk hk2 hk' hk2',
   fun creation now k k' hcn hnz hord hk hk2 hk' hk2' =>
    C4_part_anchored_hour creation now hcn hnz hord k k' hk hk2 hk' hk2',
   fun creation now k k' hcn hnz hord hk hk2 hk' hk2' =>
    C4_part_anchored_day creation now hcn hnz hord k k' hk hk2 hk' hk2'⟩

/-- Witness for the amended C4 at concrete instants (a leap-day instant, an
anchor on Jan 31): each of the five tiling parts instantiated. -/
theorem C4_amended_windows_tile_witness :
    (GetCurrentPeriodStart ⟨"hour", ⟨2023, 5, 15, 12, 30⟩, false⟩ (addMinutes (GetCurrentPeriodStart ⟨"hour", ⟨2023, 5, 15, 12, 30⟩, false⟩ ⟨2024, 2, 29, 10, 37⟩) 7) = GetCurrentPeriodStart ⟨"hour", ⟨2023, 5, 15, 12, 30⟩, false⟩ ⟨2024, 2, 29, 10, 37⟩
    ∧ GetNextPeriodStart ⟨"hour", ⟨2023, 5, 15, 12, 30⟩, false⟩ (addMinutes (GetCurrentPeriodStart ⟨"hour", ⟨2023, 5, 15, 12, 30⟩, false⟩ ⟨2024, 2, 29, 10, 37⟩) 7) = addMinutes (GetCurrentPeriodStart ⟨"hour", ⟨2023, 5, 15, 12, 30⟩, false⟩ ⟨2024, 2, 29, 10, 37⟩) 60
    ∧ GetCurrentPeriodStart ⟨"hour", ⟨2023, 5, 15, 12, 30⟩, false⟩ (addMinutes (addMinutes (GetCurrentPeriodStart ⟨"hour", ⟨2023, 5, 15, 12, 30⟩, false⟩ ⟨2024, 2, 29, 10, 37⟩) 60) 59) = addMinutes (GetCurrentPeriodStart ⟨"hour", ⟨2023, 5, 15, 12, 30⟩, false⟩ ⟨2024, 2, 29, 10, 37⟩) 60
    ∧ toMinutes (addMinutes (GetCurrentPeriodStart ⟨"hour", ⟨2023, 5, 15, 12, 30⟩, false⟩ ⟨2024, 2, 29, 10, 37⟩) 60) = toMinutes (GetCurrentPeriodStart ⟨"hour", ⟨2023, 5, 15, 12, 30⟩, false⟩ ⟨2024, 2, 29, 10, 37⟩) + 60)
    ∧ (GetCurrentPeriodStart ⟨"day", ⟨2023, 5, 15, 12, 30⟩, false⟩ (addMinutes (GetCurrentPeriodStart ⟨"day", ⟨2023, 5, 15, 12, 30⟩, false⟩ ⟨2024, 2, 29, 10, 37⟩) 777) = GetCurrentPeriodStart ⟨"day", ⟨2023, 5, 15, 12, 30⟩, false⟩ ⟨2024, 2, 29, 10, 37⟩
    ∧ GetNextPeriodStart ⟨"day", ⟨2023, 5, 15, 12, 30⟩, false⟩ (addMinutes (GetCurrentPeriodStart ⟨"day", ⟨2023, 5, 15, 12, 30⟩, false⟩ ⟨2024, 2, 29, 10, 37⟩) 777) = addDateDays (GetCurrentPeriodStart ⟨"day", ⟨2023, 5, 15, 12, 30⟩, false⟩ ⟨2024, 2, 29, 10, 37⟩) 1
    ∧ GetCurrentPeriodStart ⟨"day", ⟨2023, 5, 15, 12, 30⟩, false⟩ (addMinutes (addDateDays (GetCurrentPeriodStart ⟨"day", ⟨2023, 5, 15, 12, 30⟩, false⟩ ⟨2024, 2, 29, 10, 37⟩) 1) 1439) = addDateDays (GetCurrentPeriodStart ⟨"day", ⟨2023, 5, 15, 12, 30⟩, false⟩ ⟨2024, 2, 29, 10, 37⟩) 1
    ∧ toMinutes (addDateDays (GetCurrentPeriodStart ⟨"day", ⟨2023, 5, 15, 12, 30⟩, false⟩ ⟨2024, 2, 29, 10, 37⟩) 1) = toMinutes (GetCurrentPeriodStart ⟨"day", ⟨2023, 5, 15, 12, 30⟩, false⟩ ⟨2024, 2, 29, 10, 37⟩) + 1440)
    ∧ (GetCurrentPeriodStart ⟨"month", ⟨2023, 5, 15, 12, 30⟩, false⟩ (addMinutes (GetCurrentPeriodStart ⟨"month", ⟨2023, 5, 15, 12, 30⟩, false⟩ ⟨2024, 2, 29, 10, 37⟩) 1000) = GetCurrentPeriodStart ⟨"month", ⟨2023, 5, 15, 12, 30⟩, false⟩ ⟨2024, 2, 29, 10, 37⟩
    ∧ GetNextPeriodStart ⟨"month", ⟨2023, 5, 15, 12, 30⟩, false⟩ (addMinutes (GetCurrentPeriodStart ⟨"month", ⟨2023, 5, 15, 12, 30⟩, false⟩ ⟨2024, 2, 29, 10, 37⟩) 1000) = addDateMonths (GetCurrentPeriodStart ⟨"month", ⟨2023, 5, 15, 12, 30⟩, false⟩ ⟨2024, 2, 29, 10, 37⟩) 1
    ∧ GetCurrentPeriodStart ⟨"month", ⟨2023, 5, 15, 12, 30⟩, false⟩ (addMinutes (addDateMonths (GetCurrentPeriodStart ⟨"month", ⟨2023, 5, 15, 12, 30⟩, false⟩ ⟨2024, 2, 29, 10, 37⟩) 1) 2000) = addDateMonths (GetCurrentPeriodStart ⟨"month", ⟨2023, 5, 15, 12, 30⟩, false⟩ ⟨2024, 2, 29, 10, 37⟩) 1
    ∧ toMinutes (addDateMonths (GetCurrentPeriodStart ⟨"month", ⟨2023, 5, 15, 12, 30⟩, false⟩ ⟨2024, 2, 29, 10, 37⟩) 1) = toMinutes (GetCurrentPeriodStart ⟨"month", ⟨2023, 5, 15, 12, 30⟩, false⟩ ⟨2024, 2, 29, 10, 37⟩)
        + 1440 * daysInMonth (GetCurrentPeriodStart ⟨"month", ⟨2023, 5, 15, 12, 30⟩, false⟩ ⟨2024, 2, 29, 10, 37⟩).year (GetCurrentPeriodStart ⟨"month", ⟨2023, 5, 15, 12, 30⟩, false⟩ ⟨2024, 2, 29, 10, 37⟩).month)
    ∧ (GetCurrentPeriodStart ⟨"hour", ⟨2023, 1, 31, 5, 30⟩, true⟩ (addMinutes (GetCurrentPeriodStart ⟨"hour", ⟨2023, 1, 31, 5, 30⟩, true⟩ ⟨2024, 2, 29, 10, 37⟩) 7) = GetCurrentPeriodStart ⟨"hour", ⟨2023, 1, 31, 5, 30⟩, true⟩ ⟨2024, 2, 29, 10, 37⟩
    ∧ GetNextPeriodStart ⟨"hour", ⟨2023, 1, 31, 5, 30⟩, true⟩ (addMinutes (GetCurrentPeriodStart ⟨"hour", ⟨2023, 1, 31, 5, 30⟩, true⟩ ⟨2024, 2, 29, 10, 37⟩) 7) = addMinutes (GetCurrentPeriodStart ⟨"hour", ⟨2023, 1, 31, 5, 30⟩, true⟩ ⟨2024, 2, 29, 10, 37⟩) 60
    ∧ toMinutes (GetCurrentPeriodStart ⟨"hour", ⟨2023, 1, 31, 5, 30⟩, true⟩ (addMinutes (addMinutes (GetCurrentPeriodStart ⟨"hour", ⟨2023, 1, 31, 5, 30⟩, true⟩ ⟨2024, 2, 29, 10, 37⟩) 60) 59)) = toMinutes (GetCurrentPeriodStart ⟨"hour", ⟨2023, 1, 31, 5, 30⟩, true⟩ ⟨2024, 2, 29, 10, 37⟩) + 60
    ∧ toMinutes (addMinutes (GetCurrentPeriodStart ⟨"hour", ⟨2023, 1, 31, 5, 30⟩, true⟩ ⟨2024, 2, 29, 10, 37⟩) 60) = toMinutes (GetCurrentPeriodStart ⟨"hour", ⟨2023, 1, 31, 5, 30⟩, true⟩ ⟨2024, 2, 29, 10, 37⟩) + 60)
    ∧ (GetCurrentPeriodStart ⟨"day", ⟨2023, 1, 31, 5, 30⟩, true⟩ (addMinutes (GetCurrentPeriodStart ⟨"day", ⟨2023, 1, 31, 5, 30⟩, true⟩ ⟨2024, 2, 29, 10, 37⟩) 777) = GetCurrentPeriodStart ⟨"day", ⟨2023, 1, 31, 5, 30⟩, true⟩ ⟨2024, 2, 29, 10, 37⟩
    ∧ GetNextPeriodStart ⟨"day", ⟨2023, 1, 31, 5, 30⟩, true⟩ (addMinutes (GetCurrentPeriodStart ⟨"day", ⟨2023, 1, 31, 5, 30⟩, true⟩ ⟨2024, 2, 29, 10, 37⟩) 777) = addDateDays (GetCurrentPeriodStart ⟨"day", ⟨2023, 1, 31, 5, 30⟩, true⟩ ⟨2024, 2, 29, 10, 37⟩) 1
    ∧ toMinutes (GetCurrentPeriodStart ⟨"day", ⟨2023, 1, 31, 5, 30⟩, true⟩ (addMinutes (addDateDays (GetCurrentPeriodStart ⟨"day", ⟨2023, 1, 31, 5, 30⟩, true⟩ ⟨2024, 2, 29, 10, 37⟩) 1) 1439)) = toMinutes (GetCurrentPeriodStart ⟨"day", ⟨2023, 1, 31, 5, 30⟩, true⟩ ⟨2024, 2, 29, 10, 37⟩) + 1440
    ∧ toMinutes (addDateDays (GetCurrentPeriodStart ⟨"day", ⟨2023, 1, 31, 5, 30⟩, true⟩ ⟨2024, 2, 29, 10, 37⟩) 1) = toMinutes (GetCurrentPeriodStart ⟨"day", ⟨2023, 1, 31, 5, 30⟩, true⟩ ⟨2024, 2, 29, 10, 37⟩) + 1440) := by
  refine ⟨C4_amended_windows_tile.1 ⟨2023, 5, 15, 12, 30⟩ ⟨2024, 2, 29, 10, 37⟩ 7 59
      (by decide) (by decide) (by decide) (by decide) (by decide),
    C4_amended_windows_tile.2.1 ⟨2023, 5, 15, 12, 30⟩ ⟨2024, 2, 29, 10, 37⟩ 777 1439
      (by decide) (by decide) (by decide) (by decide) (by decide),
    C4_amended_windows_tile.2.2.1 ⟨2023, 5, 15, 12, 30⟩ ⟨2024, 2, 29, 10, 37⟩ 1000 2000
      (by decide) (by decide) (by decide) (by decide) (by decide),
    C4_amended_windows_tile.2.2.2.1 ⟨2023, 1, 31, 5, 30⟩ ⟨2024, 2, 29, 10, 37⟩ 7 59
      (by decide) (by decide) (by decide) (by decide) (by decide) (by decide) (by decide),
    C4_amended_windows_tile.2.2.2.2 ⟨2023, 1, 31, 5, 30⟩ ⟨2024, 2, 29, 10, 37⟩ 777 1439
      (by decide) (by decide) (by decide) (by decide) (by decide) (by decide) (by decide)⟩

end PveTrafficMonitor


